import Mathlib

/-!
Federation queries of dendrite: host fallback and the server-key notary.

A shallow embedding of `federationapi/internal/query.go`.

* Go `error` values are `Option GoError` (`none` is `nil`); a Go result pair
  `(value, error)` that is only read when the error is `nil` is an `Except`.
* The remote servers and the database are outside the program.  The federation
  client is a family of response functions that may depend on everything the
  program did to the outside world so far (the trace); the database is an
  abstract state with pure reads and state-changing writes.
* Every call of a federation client method and every database write appends
  one `Effect` to the trace of the `World`, so that "how often and in which
  order was the transport invoked" is a statement about a list.
* Go map iteration order is unspecified: a map is the list of its entries in
  the order in which the `range` loop happens to visit them.
* Logging is not modelled.
-/

namespace Dendrite

/-! ## Data model -/

/-- Type `gomatrixserverlib.ServerName` (a string). -/
abbrev ServerName := String

/-- Type `gomatrixserverlib.KeyID` (a string). -/
abbrev KeyID := String

/-- Type `gomatrixserverlib.RoomVersion` (a string). -/
abbrev RoomVersion := String

/-- Type `gomatrixserverlib.Timestamp`: unsigned 64-bit milliseconds.  The code only compares
timestamps (with zero and with each other), no arithmetic, so a natural number is exact. -/
abbrev Timestamp := Nat

/-- Go `error` values that occur in `query.go`. -/
inductive GoError where
  /-- An error produced outside the program (transport, database). -/
  | other (msg : String)
  /-- The value `context.Canceled`. -/
  | Canceled
  /-- The value `context.DeadlineExceeded`. -/
  | DeadlineExceeded
  /-- The result of `fmt.Errorf(label + ": %w", err)`: wraps `err`. -/
  | wrapf (label : String) (err : GoError)
  /-- The result of `fmt.Errorf("failed to find server key response for key ID %s", keyID)`. -/
  | keyNotFound (keyID : KeyID)
  /-- The result of `fmt.Errorf("found server response for key ID %s but it is no longer valid,
  min: %v valid_until: %v", keyID, min, validUntil)`. -/
  | keyNoLongerValid (keyID : KeyID) (min validUntil : Timestamp)
  /-- The result of `fmt.Errorf("notary: server returned %s, and db returned %s", err, dbErr)`. -/
  | notary (err dbErr : GoError)
  deriving DecidableEq, Repr

/-- Function `errors.Unwrap`: only `%w` wraps. -/
def GoError.Unwrap : GoError → Option GoError
  | .wrapf _ err => some err
  | _ => none

/-- A `context.Context`, reduced to what the program can observe or set. -/
structure Context where
  /-- The value of `ctx.Err()`: `none` while the context is live, `Canceled` or
  `DeadlineExceeded` once it is done. -/
  err : Option GoError
  /-- The tightest timeout in seconds imposed by `context.WithTimeout` on the way from the
  caller's context to this one, if any. -/
  timeout : Option Nat
  deriving DecidableEq, Repr

/-- Function `context.Background()`. -/
def Context.Background : Context := { err := none, timeout := none }

/-- Function `context.WithTimeout(ctx, d)` with `d` in seconds: the child is done whenever the
parent is, and is additionally bounded by `d`. -/
def Context.WithTimeout (ctx : Context) (d : Nat) : Context :=
  { err := ctx.err
    timeout := some (match ctx.timeout with
      | none => d
      | some t => min t d) }

/-- Type `gomatrixserverlib.Event`, an externally defined record the program only moves around. -/
structure Event where
  eventJSON : String
  deriving DecidableEq, Repr

/-- Type `gomatrixserverlib.RespEventAuth`. -/
structure RespEventAuth where
  AuthEvents : List Event
  deriving DecidableEq, Repr

/-- Type `gomatrixserverlib.RespStateIDs`. -/
structure RespStateIDs where
  StateEventIDs : List String
  AuthEventIDs : List String
  deriving DecidableEq, Repr

/-- Type `gomatrixserverlib.RespState`. -/
structure RespState where
  StateEvents : List Event
  AuthEvents : List Event
  deriving DecidableEq, Repr

/-- Type `gomatrixserverlib.ServerKeys`: one signed key response of a server. -/
structure ServerKeys where
  ServerName : ServerName
  VerifyKeys : List (KeyID × String)
  ValidUntilTS : Timestamp
  deriving DecidableEq, Repr

/-- Type `api.QueryEventAuthFromFederationRequest`. -/
structure QueryEventAuthFromFederationRequest where
  RoomID : String
  EventID : String
  deriving DecidableEq, Repr

/-- Type `api.QueryEventAuthFromFederationResponse`. -/
structure QueryEventAuthFromFederationResponse where
  Events : List Event
  deriving DecidableEq, Repr

/-- Type `api.QueryStateIDsFromFederationRequest`. -/
structure QueryStateIDsFromFederationRequest where
  RoomID : String
  EventID : String
  deriving DecidableEq, Repr

/-- Type `api.QueryStateIDsFromFederationResponse`. -/
structure QueryStateIDsFromFederationResponse where
  AuthEventIDs : List String
  StateEventIDs : List String
  deriving DecidableEq, Repr

/-- Type `api.QueryStateFromFederationRequest`. -/
structure QueryStateFromFederationRequest where
  RoomID : String
  EventID : String
  RoomVersion : RoomVersion
  deriving DecidableEq, Repr

/-- Type `api.QueryStateFromFederationResponse`. -/
structure QueryStateFromFederationResponse where
  AuthEvents : List Event
  StateEvents : List Event
  deriving DecidableEq, Repr

/-- Type `gomatrixserverlib.PublicKeyNotaryQueryCriteria`. -/
structure PublicKeyNotaryQueryCriteria where
  MinimumValidUntilTS : Timestamp
  deriving DecidableEq, Repr

/-- Type `api.QueryServerKeysRequest`.  The Go map `KeyIDToCriteria` is the list of its entries
in the order in which a `range` over it visits them. -/
structure QueryServerKeysRequest where
  ServerName : ServerName
  KeyIDToCriteria : List (KeyID × PublicKeyNotaryQueryCriteria)
  deriving DecidableEq, Repr

/-- Method `(*QueryServerKeysRequest).KeyIDs`: the keys of `KeyIDToCriteria`. -/
def QueryServerKeysRequest.KeyIDs (req : QueryServerKeysRequest) : List KeyID :=
  req.KeyIDToCriteria.map Prod.fst

/-- Type `api.QueryServerKeysResponse`. -/
structure QueryServerKeysResponse where
  ServerKeys : List ServerKeys
  deriving DecidableEq, Repr

/-! ## The outside world -/

/-- One action of the program on the outside world: a call of a federation client method, or a
write to the notary tables. -/
inductive Effect where
  | GetEventAuth (s : ServerName) (roomID eventID : String)
  | LookupStateIDs (s : ServerName) (roomID eventID : String)
  | LookupState (s : ServerName) (roomID eventID : String) (roomVersion : RoomVersion)
  | GetServerKeys (s : ServerName)
  | UpdateNotaryKeys (s : ServerName) (serverKeys : ServerKeys)
  deriving DecidableEq, Repr

/-- The federation client `f.federation` (the remote transport).  The first argument is the trace
of everything done before the call, so a server may answer differently each time it is asked. -/
structure FederationClient where
  GetEventAuth : List Effect → Context → ServerName → String → String →
    Except GoError RespEventAuth
  LookupStateIDs : List Effect → Context → ServerName → String → String →
    Except GoError RespStateIDs
  LookupState : List Effect → Context → ServerName → String → String → RoomVersion →
    Except GoError RespState
  GetServerKeys : List Effect → Context → ServerName → Except GoError ServerKeys

/-- The database `f.db`, over an abstract store state `σ`: reads are functions of the state,
`UpdateNotaryKeys` returns its error and the next state. -/
structure Database (σ : Type) where
  GetJoinedHostsForRooms : Context → σ → List String → Except GoError (List ServerName)
  GetNotaryKeys : Context → σ → ServerName → List KeyID → List ServerKeys × Option GoError
  UpdateNotaryKeys : Context → σ → ServerName → ServerKeys → Option GoError × σ

/-- The state of the outside world: the store, and the trace of transport calls and store
writes made so far, oldest first. -/
structure World (σ : Type) where
  db : σ
  trace : List Effect

/-- Type `FederationInternalAPI`, reduced to the two collaborators `query.go` uses. -/
structure FederationInternalAPI (σ : Type) where
  db : Database σ
  federation : FederationClient

variable {σ : Type}

/-- Modelled from the spec: `f.doRequest`, defined outside the given sources.  The spec's step
"Invoke the Remote Transport for the operation kind against that host" is read as: run the
request closure once and return what it returned. -/
def FederationInternalAPI.doRequest {α : Type} (_f : FederationInternalAPI σ) (_s : ServerName)
    (request : World σ → Except GoError α × World σ) (w : World σ) :
    Except GoError α × World σ :=
  request w

/-- The call `f.federation.GetEventAuth(ctx, serverName, roomID, eventID)` in world `w`. -/
def FederationInternalAPI.callGetEventAuth (f : FederationInternalAPI σ) (ctx : Context)
    (serverName : ServerName) (roomID eventID : String) (w : World σ) :
    Except GoError RespEventAuth × World σ :=
  (f.federation.GetEventAuth w.trace ctx serverName roomID eventID,
   { w with trace := w.trace ++ [Effect.GetEventAuth serverName roomID eventID] })

/-- The call `f.federation.LookupStateIDs(ctx, serverName, roomID, eventID)` in world `w`. -/
def FederationInternalAPI.callLookupStateIDs (f : FederationInternalAPI σ) (ctx : Context)
    (serverName : ServerName) (roomID eventID : String) (w : World σ) :
    Except GoError RespStateIDs × World σ :=
  (f.federation.LookupStateIDs w.trace ctx serverName roomID eventID,
   { w with trace := w.trace ++ [Effect.LookupStateIDs serverName roomID eventID] })

/-- The call `f.federation.LookupState(ctx, serverName, roomID, eventID, roomVersion)`. -/
def FederationInternalAPI.callLookupState (f : FederationInternalAPI σ) (ctx : Context)
    (serverName : ServerName) (roomID eventID : String) (roomVersion : RoomVersion)
    (w : World σ) : Except GoError RespState × World σ :=
  (f.federation.LookupState w.trace ctx serverName roomID eventID roomVersion,
   { w with trace := w.trace ++ [Effect.LookupState serverName roomID eventID roomVersion] })

/-- The call `a.federation.GetServerKeys(ctx, serverName)` in world `w`. -/
def FederationInternalAPI.callGetServerKeys (a : FederationInternalAPI σ) (ctx : Context)
    (serverName : ServerName) (w : World σ) : Except GoError ServerKeys × World σ :=
  (a.federation.GetServerKeys w.trace ctx serverName,
   { w with trace := w.trace ++ [Effect.GetServerKeys serverName] })

/-- The call `a.db.UpdateNotaryKeys(ctx, serverName, serverKeys)` in world `w`. -/
def FederationInternalAPI.callUpdateNotaryKeys (a : FederationInternalAPI σ) (ctx : Context)
    (serverName : ServerName) (serverKeys : ServerKeys) (w : World σ) :
    Option GoError × World σ :=
  ((a.db.UpdateNotaryKeys ctx w.db serverName serverKeys).1,
   { db := (a.db.UpdateNotaryKeys ctx w.db serverName serverKeys).2
     trace := w.trace ++ [Effect.UpdateNotaryKeys serverName serverKeys] })

/-! ## Host fallback (`query.go`, lines 28 to 149) -/

/-- The loop shared verbatim by the three host-fallback queries:
`for _, host := range joinedHosts { if lasterr = tryHost(host); lasterr != nil { continue }; break }`
followed by `return lasterr`.  The state `S` is what `tryHost` can change (the world and the
response); the second argument is the current value of `lasterr`. -/
def rangeJoinedHosts {S : Type} (tryHost : ServerName → S → Option GoError × S) :
    List ServerName → Option GoError → S → Option GoError × S
  | [], lasterr, st => (lasterr, st)
  | host :: rest, _, st =>
    match tryHost host st with
    | (some err, st1) => rangeJoinedHosts tryHost rest (some err) st1
    | (none, st1) => (none, st1)

/-- The closure `tryHost` of `QueryEventAuthFromFederation`. -/
def FederationInternalAPI.QueryEventAuthFromFederation.tryHost (f : FederationInternalAPI σ)
    (ctx : Context) (request : QueryEventAuthFromFederationRequest)
    (serverName : ServerName) (st : World σ × QueryEventAuthFromFederationResponse) :
    Option GoError × (World σ × QueryEventAuthFromFederationResponse) :=
  let ctx1 := ctx.WithTimeout 30
  match f.doRequest serverName
      (f.callGetEventAuth ctx1 serverName request.RoomID request.EventID) st.1 with
  | (.error err, w1) => (some (.wrapf "f.doRequest" err), (w1, st.2))
  | (.ok tx, w1) => (none, (w1, { st.2 with Events := tx.AuthEvents }))

/-- Method `QueryEventAuthFromFederation`: the returned error, the world and the response
afterwards. -/
def FederationInternalAPI.QueryEventAuthFromFederation (f : FederationInternalAPI σ)
    (ctx : Context) (request : QueryEventAuthFromFederationRequest)
    (response : QueryEventAuthFromFederationResponse) (w : World σ) :
    Option GoError × (World σ × QueryEventAuthFromFederationResponse) :=
  match f.db.GetJoinedHostsForRooms ctx w.db [request.RoomID] with
  | .error err => (some (.wrapf "f.db.GetJoinedHostsForRooms" err), (w, response))
  | .ok joinedHosts =>
    rangeJoinedHosts (QueryEventAuthFromFederation.tryHost f ctx request) joinedHosts none
      (w, response)

/-- The closure `tryHost` of `QueryStateIDsFromFederation`. -/
def FederationInternalAPI.QueryStateIDsFromFederation.tryHost (f : FederationInternalAPI σ)
    (ctx : Context) (request : QueryStateIDsFromFederationRequest)
    (serverName : ServerName) (st : World σ × QueryStateIDsFromFederationResponse) :
    Option GoError × (World σ × QueryStateIDsFromFederationResponse) :=
  let ctx1 := ctx.WithTimeout 30
  match f.doRequest serverName
      (f.callLookupStateIDs ctx1 serverName request.RoomID request.EventID) st.1 with
  | (.error err, w1) => (some (.wrapf "f.doRequest" err), (w1, st.2))
  | (.ok tx, w1) =>
    (none, (w1, { st.2 with AuthEventIDs := tx.AuthEventIDs, StateEventIDs := tx.StateEventIDs }))

/-- Method `QueryStateIDsFromFederation`. -/
def FederationInternalAPI.QueryStateIDsFromFederation (f : FederationInternalAPI σ)
    (ctx : Context) (request : QueryStateIDsFromFederationRequest)
    (response : QueryStateIDsFromFederationResponse) (w : World σ) :
    Option GoError × (World σ × QueryStateIDsFromFederationResponse) :=
  match f.db.GetJoinedHostsForRooms ctx w.db [request.RoomID] with
  | .error err => (some (.wrapf "f.db.GetJoinedHostsForRooms" err), (w, response))
  | .ok joinedHosts =>
    rangeJoinedHosts (QueryStateIDsFromFederation.tryHost f ctx request) joinedHosts none
      (w, response)

/-- The closure `tryHost` of `QueryStateFromFederation`. -/
def FederationInternalAPI.QueryStateFromFederation.tryHost (f : FederationInternalAPI σ)
    (ctx : Context) (request : QueryStateFromFederationRequest)
    (serverName : ServerName) (st : World σ × QueryStateFromFederationResponse) :
    Option GoError × (World σ × QueryStateFromFederationResponse) :=
  let ctx1 := ctx.WithTimeout 30
  match f.doRequest serverName
      (f.callLookupState ctx1 serverName request.RoomID request.EventID request.RoomVersion)
      st.1 with
  | (.error err, w1) => (some (.wrapf "f.doRequest" err), (w1, st.2))
  | (.ok tx, w1) =>
    (none, (w1, { st.2 with AuthEvents := tx.AuthEvents, StateEvents := tx.StateEvents }))

/-- Method `QueryStateFromFederation`. -/
def FederationInternalAPI.QueryStateFromFederation (f : FederationInternalAPI σ)
    (ctx : Context) (request : QueryStateFromFederationRequest)
    (response : QueryStateFromFederationResponse) (w : World σ) :
    Option GoError × (World σ × QueryStateFromFederationResponse) :=
  match f.db.GetJoinedHostsForRooms ctx w.db [request.RoomID] with
  | .error err => (some (.wrapf "f.db.GetJoinedHostsForRooms" err), (w, response))
  | .ok joinedHosts =>
    rangeJoinedHosts (QueryStateFromFederation.tryHost f ctx request) joinedHosts none
      (w, response)

/-! ## The server-key notary (`query.go`, lines 151 to 220) -/

/-- Method `fetchServerKeysDirectly`. -/
def FederationInternalAPI.fetchServerKeysDirectly (a : FederationInternalAPI σ) (ctx : Context)
    (serverName : ServerName) (w : World σ) : Except GoError ServerKeys × World σ :=
  let ctx1 := ctx.WithTimeout 30
  match a.doRequest serverName (a.callGetServerKeys ctx1 serverName) w with
  | (.error err, w1) => (.error err, w1)
  | (.ok sks, w1) => (.ok sks, w1)

/-- The body of the `range req.KeyIDToCriteria` loop of `fetchServerKeysFromCache`, run over the
entries still to visit, with the current value of `results`. -/
def FederationInternalAPI.fetchServerKeysFromCache.loop (a : FederationInternalAPI σ)
    (ctx : Context) (serverName : ServerName) (db : σ) :
    List (KeyID × PublicKeyNotaryQueryCriteria) → List ServerKeys →
      Except GoError (List ServerKeys)
  | [], results => .ok results
  | (keyID, criteria) :: rest, results =>
    match (a.db.GetNotaryKeys ctx db serverName [keyID]).1 with
    | [] => .error (.keyNotFound keyID)
    | sk :: _ =>
      if criteria.MinimumValidUntilTS ≠ 0 ∧ sk.ValidUntilTS < criteria.MinimumValidUntilTS then
        .error (.keyNoLongerValid keyID criteria.MinimumValidUntilTS sk.ValidUntilTS)
      else
        fetchServerKeysFromCache.loop a ctx serverName db rest (results ++ [sk])

/-- Method `fetchServerKeysFromCache`.  It only reads the store, so it returns no new world. -/
def FederationInternalAPI.fetchServerKeysFromCache (a : FederationInternalAPI σ) (ctx : Context)
    (req : QueryServerKeysRequest) (w : World σ) : Except GoError (List ServerKeys) :=
  fetchServerKeysFromCache.loop a ctx req.ServerName w.db req.KeyIDToCriteria []

/-- Method `QueryServerKeys`: the returned error, the response and the world afterwards. -/
def FederationInternalAPI.QueryServerKeys (a : FederationInternalAPI σ) (ctx : Context)
    (req : QueryServerKeysRequest) (res : QueryServerKeysResponse) (w : World σ) :
    Option GoError × (World σ × QueryServerKeysResponse) :=
  match a.fetchServerKeysFromCache ctx req w with
  | .ok results => (none, (w, { res with ServerKeys := results }))
  | .error _ =>
    match a.fetchServerKeysDirectly ctx req.ServerName w with
    | (.error err, w1) =>
      match a.db.GetNotaryKeys ctx w1.db req.ServerName req.KeyIDs with
      | (_, some dbErr) => (some (.notary err dbErr), (w1, res))
      | (serverKeysResponses, none) => (none, (w1, { res with ServerKeys := serverKeysResponses }))
    | (.ok serverKeys, w1) =>
      let w2 := (a.callUpdateNotaryKeys Context.Background req.ServerName serverKeys w1).2
      (none, (w2, { res with ServerKeys := [serverKeys] }))

/-! ## Vocabulary of the statements -/

/-- Every host of the list fails when the hosts are asked in order, the first one after trace
`t`: `ask t h` is the outcome of asking host `h` after trace `t`, and `eff h` is the trace entry
that asking `h` leaves behind. -/
def AllFail {R : Type} (ask : List Effect → ServerName → Except GoError R)
    (eff : ServerName → Effect) : List Effect → List ServerName → Prop
  | _, [] => True
  | t, h :: rest => (∃ e, ask t h = .error e) ∧ AllFail ask eff (t ++ [eff h]) rest

/-- The outcome of the transport call that `tryHost` of `QueryEventAuthFromFederation` makes
against host `s` after trace `t`. -/
def FederationInternalAPI.QueryEventAuthFromFederation.attempt (f : FederationInternalAPI σ)
    (ctx : Context) (request : QueryEventAuthFromFederationRequest) (t : List Effect)
    (s : ServerName) : Except GoError RespEventAuth :=
  f.federation.GetEventAuth t (ctx.WithTimeout 30) s request.RoomID request.EventID

/-- The trace entry of that call. -/
def FederationInternalAPI.QueryEventAuthFromFederation.effect
    (request : QueryEventAuthFromFederationRequest) (s : ServerName) : Effect :=
  Effect.GetEventAuth s request.RoomID request.EventID

/-- The outcome of the transport call that `tryHost` of `QueryStateIDsFromFederation` makes
against host `s` after trace `t`. -/
def FederationInternalAPI.QueryStateIDsFromFederation.attempt (f : FederationInternalAPI σ)
    (ctx : Context) (request : QueryStateIDsFromFederationRequest) (t : List Effect)
    (s : ServerName) : Except GoError RespStateIDs :=
  f.federation.LookupStateIDs t (ctx.WithTimeout 30) s request.RoomID request.EventID

/-- The trace entry of that call. -/
def FederationInternalAPI.QueryStateIDsFromFederation.effect
    (request : QueryStateIDsFromFederationRequest) (s : ServerName) : Effect :=
  Effect.LookupStateIDs s request.RoomID request.EventID

/-- The outcome of the transport call that `tryHost` of `QueryStateFromFederation` makes
against host `s` after trace `t`. -/
def FederationInternalAPI.QueryStateFromFederation.attempt (f : FederationInternalAPI σ)
    (ctx : Context) (request : QueryStateFromFederationRequest) (t : List Effect)
    (s : ServerName) : Except GoError RespState :=
  f.federation.LookupState t (ctx.WithTimeout 30) s request.RoomID request.EventID
    request.RoomVersion

/-- The trace entry of that call. -/
def FederationInternalAPI.QueryStateFromFederation.effect
    (request : QueryStateFromFederationRequest) (s : ServerName) : Effect :=
  Effect.LookupState s request.RoomID request.EventID request.RoomVersion

/-- The common shape of the three `tryHost` closures: ask the host, append the trace entry, and
either wrap the error or store the answer in the response. -/
def tryHostWith {R Resp : Type} (ask : List Effect → ServerName → Except GoError R)
    (eff : ServerName → Effect) (set : Resp → R → Resp) (s : ServerName)
    (st : World σ × Resp) : Option GoError × (World σ × Resp) :=
  match ask st.1.trace s with
  | .error err =>
    (some (.wrapf "f.doRequest" err), ({ st.1 with trace := st.1.trace ++ [eff s] }, st.2))
  | .ok tx => (none, ({ st.1 with trace := st.1.trace ++ [eff s] }, set st.2 tx))

/-- The calls `a.QueryServerKeys(ctx, req, res)` made `n` times in a row, each on the world and
the response the previous one left: the returned errors and responses, and the final world. -/
def QueryServerKeysRepeated (a : FederationInternalAPI σ) (ctx : Context)
    (req : QueryServerKeysRequest) :
    Nat → QueryServerKeysResponse → World σ →
      List (Option GoError × QueryServerKeysResponse) × World σ
  | 0, _, w => ([], w)
  | n + 1, res, w =>
    let r := a.QueryServerKeys ctx req res w
    let rs := QueryServerKeysRepeated a ctx req n r.2.2 r.2.1
    ((r.1, r.2.2) :: rs.1, rs.2)

/-! ## A concrete outside world -/

/-- Modelled from the spec: the Notary Store and the Candidate Host Source, which are defined
outside the given sources.  "A multi-version key-value table: primary content is (serverName,
keyID, keyMaterial, validUntilTimestamp); reads always return the latest version per
(serverName, keyID)", "missing ids simply absent from the result, not an error", and reads and
writes are best-effort, so each can be set to fail. -/
structure MemStore where
  /-- The joined hosts of each room. -/
  joinedHosts : List (String × List ServerName)
  /-- The stored key responses, newest first. -/
  notaryKeys : List (ServerName × KeyID × ServerKeys)
  /-- The error every read of the notary keys reports, if any. -/
  readErr : Option GoError
  /-- The error every write reports, if any. -/
  writeErr : Option GoError
  deriving DecidableEq, Repr

/-- The newest stored response for a server and key id. -/
def MemStore.latest (s : MemStore) (serverName : ServerName) (keyID : KeyID) :
    Option ServerKeys :=
  (s.notaryKeys.find? (fun e => e.1 == serverName && e.2.1 == keyID)).map (fun e => e.2.2)

/-- Modelled from the spec: the database interface over `MemStore`. -/
def memDatabase : Database MemStore where
  GetJoinedHostsForRooms := fun _ s roomIDs =>
    .ok ((s.joinedHosts.filter (fun e => roomIDs.contains e.1)).flatMap (fun e => e.2))
  GetNotaryKeys := fun _ s serverName keyIDs =>
    (keyIDs.filterMap (fun k => s.latest serverName k), s.readErr)
  UpdateNotaryKeys := fun _ s serverName serverKeys =>
    match s.writeErr with
    | some e => (some e, s)
    | none =>
      (none, { s with notaryKeys :=
        serverKeys.VerifyKeys.map (fun kv => (serverName, kv.1, serverKeys)) ++ s.notaryKeys })

/-! ## Example worlds -/

/-- A store in which room `!room:x` has three joined hosts and room `!empty:x` has none. -/
def exStore : MemStore :=
  { joinedHosts := [("!room:x", ["a.org", "b.org", "c.org"]), ("!empty:x", [])]
    notaryKeys := []
    readErr := none
    writeErr := none }

/-- A transport on which every call to host `s` fails with its own error `other s`. -/
def fedDown : FederationClient where
  GetEventAuth := fun _ _ s _ _ => .error (.other s)
  LookupStateIDs := fun _ _ s _ _ => .error (.other s)
  LookupState := fun _ _ s _ _ _ => .error (.other s)
  GetServerKeys := fun _ _ s => .error (.other s)

/-- A transport on which only `c.org` answers. -/
def fedOnlyC : FederationClient where
  GetEventAuth := fun _ _ s _ _ =>
    if s = "c.org" then .ok { AuthEvents := [⟨"auth"⟩] } else .error (.other s)
  LookupStateIDs := fun _ _ s _ _ =>
    if s = "c.org" then .ok { StateEventIDs := ["$s"], AuthEventIDs := ["$a"] }
    else .error (.other s)
  LookupState := fun _ _ s _ _ _ =>
    if s = "c.org" then .ok { StateEvents := [⟨"state"⟩], AuthEvents := [⟨"auth"⟩] }
    else .error (.other s)
  GetServerKeys := fun _ _ s => .error (.other s)

/-- A transport that observes the context: a call under a context that is done fails with the
error of the context, any other call is answered. -/
def fedCtx : FederationClient where
  GetEventAuth := fun _ ctx _ _ _ =>
    match ctx.err with
    | some e => .error e
    | none => .ok { AuthEvents := [⟨"auth"⟩] }
  LookupStateIDs := fun _ ctx _ _ _ =>
    match ctx.err with
    | some e => .error e
    | none => .ok { StateEventIDs := ["$s"], AuthEventIDs := ["$a"] }
  LookupState := fun _ ctx _ _ _ _ =>
    match ctx.err with
    | some e => .error e
    | none => .ok { StateEvents := [⟨"state"⟩], AuthEvents := [⟨"auth"⟩] }
  GetServerKeys := fun _ ctx s =>
    match ctx.err with
    | some e => .error e
    | none => .ok { ServerName := s, VerifyKeys := [("ed25519:1", "key")], ValidUntilTS := 100 }

/-- The caller's context after the caller cancelled it. -/
def ctxCanceled : Context := { err := some .Canceled, timeout := none }

/-- The world at the start of the examples: `exStore` and an empty trace. -/
def exWorld : World MemStore := { db := exStore, trace := [] }

/-- The program over `exStore`-like stores with the transport on which only `c.org` answers. -/
def apiOnlyC : FederationInternalAPI MemStore := { db := memDatabase, federation := fedOnlyC }

/-- The program with the transport on which every call fails. -/
def apiDown : FederationInternalAPI MemStore := { db := memDatabase, federation := fedDown }

/-- The program with the transport that observes the context. -/
def apiCtx : FederationInternalAPI MemStore := { db := memDatabase, federation := fedCtx }

/-! ## Vocabulary of the notary statements -/

/-- The key id of the request entry `p` is missing from the store (the read for it returns no
entry), or the first entry returned for it is stale: the criterion has a non-zero
`MinimumValidUntilTS` and the entry's `ValidUntilTS` is strictly less. -/
def MissingOrStale (a : FederationInternalAPI σ) (ctx : Context) (db : σ)
    (serverName : ServerName) (p : KeyID × PublicKeyNotaryQueryCriteria) : Prop :=
  (a.db.GetNotaryKeys ctx db serverName [p.1]).1 = [] ∨
    ∃ sk rest, (a.db.GetNotaryKeys ctx db serverName [p.1]).1 = sk :: rest ∧
      p.2.MinimumValidUntilTS ≠ 0 ∧ sk.ValidUntilTS < p.2.MinimumValidUntilTS

/-- Modelled from the spec: the write-then-read contract of the Notary Store, which is defined
outside the given sources ("reads always return the latest version per (serverName, keyID)"):
after a write of the key set `sk` for `serverName` that reported no error, a read for any key
id of `sk` returns `sk` first. -/
def Database.KeepsWrites (db : Database σ) : Prop :=
  ∀ (ctx ctx2 : Context) (s : σ) (serverName : ServerName) (sk : ServerKeys),
    (db.UpdateNotaryKeys ctx s serverName sk).1 = none →
    ∀ kv ∈ sk.VerifyKeys,
      (db.GetNotaryKeys ctx2 (db.UpdateNotaryKeys ctx s serverName sk).2 serverName
        [kv.1]).1.head? = some sk

/-- The key response the example server `origin.org` published first. -/
def oldKeys : ServerKeys :=
  { ServerName := "origin.org", VerifyKeys := [("ed25519:1", "key1")], ValidUntilTS := 100 }

/-- The key response the example server `origin.org` publishes now. -/
def newKeys : ServerKeys :=
  { ServerName := "origin.org", VerifyKeys := [("ed25519:1", "key1")], ValidUntilTS := 300 }

/-- A store that holds `oldKeys` for key id `ed25519:1` of `origin.org`, and nothing else. -/
def notaryStore : MemStore :=
  { joinedHosts := []
    notaryKeys := [("origin.org", "ed25519:1", oldKeys)]
    readErr := none
    writeErr := none }

/-- The same store when its writes fail. -/
def notaryStoreReadOnly : MemStore :=
  { notaryStore with writeErr := some (.other "read-only") }

/-- A transport on which `GetServerKeys` answers with `newKeys` and everything else fails. -/
def fedKeys : FederationClient where
  GetEventAuth := fun _ _ s _ _ => .error (.other s)
  LookupStateIDs := fun _ _ s _ _ => .error (.other s)
  LookupState := fun _ _ s _ _ _ => .error (.other s)
  GetServerKeys := fun _ _ _ => .ok newKeys

/-- The program with the transport that answers `GetServerKeys`. -/
def apiKeys : FederationInternalAPI MemStore := { db := memDatabase, federation := fedKeys }

/-- The example store `exStore`, which holds no notary keys, when its reads fail. -/
def exStoreUnreadable : MemStore :=
  { exStore with readErr := some (.other "db down") }

end Dendrite

namespace Dendrite

open FederationInternalAPI

variable {σ : Type}

/-! ## The host loop -/

section HostLoop

variable {R Resp : Type} (ask : List Effect → ServerName → Except GoError R)
  (eff : ServerName → Effect) (set : Resp → R → Resp)

theorem allFail_append (t : List Effect) (xs ys : List ServerName) :
    AllFail ask eff t (xs ++ ys) ↔
      AllFail ask eff t xs ∧ AllFail ask eff (t ++ xs.map eff) ys := by
  induction xs generalizing t with
  | nil => simp [AllFail]
  | cons a xs ih =>
    have h1 : AllFail ask eff t (a :: xs ++ ys) ↔
        (∃ e, ask t a = .error e) ∧ AllFail ask eff (t ++ [eff a]) (xs ++ ys) := Iff.rfl
    have h2 : AllFail ask eff t (a :: xs) ↔
        (∃ e, ask t a = .error e) ∧ AllFail ask eff (t ++ [eff a]) xs := Iff.rfl
    rw [h1, h2, ih, and_assoc, List.map_cons, List.append_assoc, List.singleton_append]

/-- Hosts that fail are passed over: the loop reaches the next host with every failed call in
the trace and the response untouched. -/
theorem rangeJoinedHosts_skip (pre : List ServerName) (h : ServerName)
    (post : List ServerName) (l l2 : Option GoError) (w : World σ) (resp : Resp)
    (hfail : AllFail ask eff w.trace pre) :
    rangeJoinedHosts (tryHostWith ask eff set) (pre ++ h :: post) l (w, resp) =
      rangeJoinedHosts (tryHostWith ask eff set) (h :: post) l2
        ({ w with trace := w.trace ++ pre.map eff }, resp) := by
  induction pre generalizing w l with
  | nil => simp [rangeJoinedHosts]
  | cons a pre ih =>
    obtain ⟨⟨e, he⟩, hrest⟩ := hfail
    have hstep : tryHostWith ask eff set a (w, resp) =
        (some (.wrapf "f.doRequest" e), ({ w with trace := w.trace ++ [eff a] }, resp)) := by
      simp [tryHostWith, he]
    rw [List.cons_append, rangeJoinedHosts, hstep]
    simp only
    rw [ih _ _ hrest]
    simp [List.append_assoc]

/-- The loop stops at the first host that answers. -/
theorem rangeJoinedHosts_first_ok (pre : List ServerName) (h : ServerName)
    (post : List ServerName) (l : Option GoError) (w : World σ) (resp : Resp) (tx : R)
    (hfail : AllFail ask eff w.trace pre)
    (hok : ask (w.trace ++ pre.map eff) h = .ok tx) :
    rangeJoinedHosts (tryHostWith ask eff set) (pre ++ h :: post) l (w, resp) =
      (none, ({ w with trace := w.trace ++ (pre ++ [h]).map eff }, set resp tx)) := by
  rw [rangeJoinedHosts_skip ask eff set pre h post l none w resp hfail, rangeJoinedHosts]
  simp [tryHostWith, hok]

/-- When every host fails the loop visits all of them and returns the last error, wrapped. -/
theorem rangeJoinedHosts_all_fail (pre : List ServerName) (h : ServerName)
    (l : Option GoError) (w : World σ) (resp : Resp) (eLast : GoError)
    (hfail : AllFail ask eff w.trace pre)
    (hlast : ask (w.trace ++ pre.map eff) h = .error eLast) :
    rangeJoinedHosts (tryHostWith ask eff set) (pre ++ [h]) l (w, resp) =
      (some (.wrapf "f.doRequest" eLast),
        ({ w with trace := w.trace ++ (pre ++ [h]).map eff }, resp)) := by
  rw [rangeJoinedHosts_skip ask eff set pre h [] l none w resp hfail, rangeJoinedHosts]
  simp [tryHostWith, hlast, rangeJoinedHosts]

/-- The loop only ever extends the trace. -/
theorem rangeJoinedHosts_trace_extends (hosts : List ServerName) (l : Option GoError)
    (w : World σ) (resp : Resp) :
    w.trace <+: (rangeJoinedHosts (tryHostWith ask eff set) hosts l (w, resp)).2.1.trace := by
  induction hosts generalizing w l resp with
  | nil => simp [rangeJoinedHosts]
  | cons a hosts ih =>
    rw [rangeJoinedHosts]
    cases hask : ask w.trace a with
    | error e =>
      simp only [tryHostWith, hask]
      exact (List.prefix_append w.trace [eff a]).trans
        (ih (some (.wrapf "f.doRequest" e)) { db := w.db, trace := w.trace ++ [eff a] } resp)
    | ok tx =>
      simp [tryHostWith, hask]

/-- After a failed host the loop asks the next one, whatever the reason of the failure. -/
theorem rangeJoinedHosts_asks_next (pre : List ServerName) (h next : ServerName)
    (post : List ServerName) (l : Option GoError) (w : World σ) (resp : Resp) (e : GoError)
    (hfail : AllFail ask eff w.trace pre)
    (hlast : ask (w.trace ++ pre.map eff) h = .error e) :
    (w.trace ++ (pre ++ [h, next]).map eff) <+:
      (rangeJoinedHosts (tryHostWith ask eff set) (pre ++ h :: next :: post) l
        (w, resp)).2.1.trace := by
  have hfail2 : AllFail ask eff w.trace (pre ++ [h]) := by
    rw [allFail_append]
    exact ⟨hfail, ⟨e, hlast⟩, trivial⟩
  have hsplit : pre ++ h :: next :: post = (pre ++ [h]) ++ next :: post := by simp
  rw [hsplit, rangeJoinedHosts_skip ask eff set (pre ++ [h]) next post l none w resp hfail2,
    rangeJoinedHosts]
  cases hask : ask (w.trace ++ (pre ++ [h]).map eff) next with
  | error e2 =>
    simp only [tryHostWith, hask]
    refine List.IsPrefix.trans ?_ (rangeJoinedHosts_trace_extends ask eff set _ _ _ _)
    simp
  | ok tx =>
    simp only [tryHostWith, hask]
    simp

end HostLoop

theorem eventAuth_tryHost_eq (f : FederationInternalAPI σ) (ctx : Context)
    (request : QueryEventAuthFromFederationRequest) :
    QueryEventAuthFromFederation.tryHost f ctx request =
      tryHostWith (QueryEventAuthFromFederation.attempt f ctx request)
        (QueryEventAuthFromFederation.effect request)
        (fun r tx => { r with Events := tx.AuthEvents }) := by
  funext s st
  simp only [QueryEventAuthFromFederation.tryHost, doRequest, callGetEventAuth, tryHostWith,
    QueryEventAuthFromFederation.attempt, QueryEventAuthFromFederation.effect]
  cases f.federation.GetEventAuth st.1.trace (ctx.WithTimeout 30) s request.RoomID
    request.EventID <;> rfl

theorem stateIDs_tryHost_eq (f : FederationInternalAPI σ) (ctx : Context)
    (request : QueryStateIDsFromFederationRequest) :
    QueryStateIDsFromFederation.tryHost f ctx request =
      tryHostWith (QueryStateIDsFromFederation.attempt f ctx request)
        (QueryStateIDsFromFederation.effect request)
        (fun r tx =>
          { r with AuthEventIDs := tx.AuthEventIDs, StateEventIDs := tx.StateEventIDs }) := by
  funext s st
  simp only [QueryStateIDsFromFederation.tryHost, doRequest, callLookupStateIDs, tryHostWith,
    QueryStateIDsFromFederation.attempt, QueryStateIDsFromFederation.effect]
  cases f.federation.LookupStateIDs st.1.trace (ctx.WithTimeout 30) s request.RoomID
    request.EventID <;> rfl

theorem state_tryHost_eq (f : FederationInternalAPI σ) (ctx : Context)
    (request : QueryStateFromFederationRequest) :
    QueryStateFromFederation.tryHost f ctx request =
      tryHostWith (QueryStateFromFederation.attempt f ctx request)
        (QueryStateFromFederation.effect request)
        (fun r tx => { r with AuthEvents := tx.AuthEvents, StateEvents := tx.StateEvents }) := by
  funext s st
  simp only [QueryStateFromFederation.tryHost, doRequest, callLookupState, tryHostWith,
    QueryStateFromFederation.attempt, QueryStateFromFederation.effect]
  cases f.federation.LookupState st.1.trace (ctx.WithTimeout 30) s request.RoomID
    request.EventID request.RoomVersion <;> rfl

/-- A list with an element at index `n` splits there. -/
theorem split_at_index {α : Type} (l : List α) (n : Nat) (a : α) (h : l[n]? = some a) :
    l = l.take n ++ a :: l.drop (n + 1) ∧ l.take (n + 1) = l.take n ++ [a] := by
  induction l generalizing n with
  | nil => simp at h
  | cons b l ih =>
    cases n with
    | zero =>
      simp at h
      simp [h]
    | succ n =>
      simp at h
      obtain ⟨h1, h2⟩ := ih n h
      constructor
      · simp only [List.take_succ_cons, List.drop_succ_cons, List.cons_append]
        rw [← h1]
      · simp only [List.take_succ_cons, List.cons_append]
        rw [h2]

/-! ## Host fallback: the claims -/

/-- C1: for each of `QueryEventAuthFromFederation`, `QueryStateIDsFromFederation` and
`QueryStateFromFederation`: if the joined-host list has the host `h` at position `k` (counted
from 1), every host before it fails and `h` answers with `tx`, then the call returns `nil`, the
response holds exactly the fields of `tx`, and the trace grows by exactly the calls to the first
`k` hosts in list order, which are `k` calls: no later host is contacted. -/
theorem first_success_wins :
    (∀ (f : FederationInternalAPI σ) (ctx : Context)
        (request : QueryEventAuthFromFederationRequest)
        (response : QueryEventAuthFromFederationResponse) (w : World σ)
        (joinedHosts : List ServerName) (k : Nat) (h : ServerName) (tx : RespEventAuth),
        f.db.GetJoinedHostsForRooms ctx w.db [request.RoomID] = .ok joinedHosts →
        0 < k → joinedHosts[k - 1]? = some h →
        AllFail (QueryEventAuthFromFederation.attempt f ctx request)
          (QueryEventAuthFromFederation.effect request) w.trace (joinedHosts.take (k - 1)) →
        QueryEventAuthFromFederation.attempt f ctx request
          (w.trace ++ (joinedHosts.take (k - 1)).map (QueryEventAuthFromFederation.effect request))
          h = .ok tx →
        f.QueryEventAuthFromFederation ctx request response w =
            (none,
              ({ db := w.db
                 trace := w.trace ++
                  (joinedHosts.take k).map (QueryEventAuthFromFederation.effect request) },
               { Events := tx.AuthEvents })) ∧
          ((joinedHosts.take k).map (QueryEventAuthFromFederation.effect request)).length = k) ∧
    (∀ (f : FederationInternalAPI σ) (ctx : Context)
        (request : QueryStateIDsFromFederationRequest)
        (response : QueryStateIDsFromFederationResponse) (w : World σ)
        (joinedHosts : List ServerName) (k : Nat) (h : ServerName) (tx : RespStateIDs),
        f.db.GetJoinedHostsForRooms ctx w.db [request.RoomID] = .ok joinedHosts →
        0 < k → joinedHosts[k - 1]? = some h →
        AllFail (QueryStateIDsFromFederation.attempt f ctx request)
          (QueryStateIDsFromFederation.effect request) w.trace (joinedHosts.take (k - 1)) →
        QueryStateIDsFromFederation.attempt f ctx request
          (w.trace ++ (joinedHosts.take (k - 1)).map (QueryStateIDsFromFederation.effect request))
          h = .ok tx →
        f.QueryStateIDsFromFederation ctx request response w =
            (none,
              ({ db := w.db
                 trace := w.trace ++
                  (joinedHosts.take k).map (QueryStateIDsFromFederation.effect request) },
               { AuthEventIDs := tx.AuthEventIDs, StateEventIDs := tx.StateEventIDs })) ∧
          ((joinedHosts.take k).map (QueryStateIDsFromFederation.effect request)).length = k) ∧
    (∀ (f : FederationInternalAPI σ) (ctx : Context)
        (request : QueryStateFromFederationRequest)
        (response : QueryStateFromFederationResponse) (w : World σ)
        (joinedHosts : List ServerName) (k : Nat) (h : ServerName) (tx : RespState),
        f.db.GetJoinedHostsForRooms ctx w.db [request.RoomID] = .ok joinedHosts →
        0 < k → joinedHosts[k - 1]? = some h →
        AllFail (QueryStateFromFederation.attempt f ctx request)
          (QueryStateFromFederation.effect request) w.trace (joinedHosts.take (k - 1)) →
        QueryStateFromFederation.attempt f ctx request
          (w.trace ++ (joinedHosts.take (k - 1)).map (QueryStateFromFederation.effect request))
          h = .ok tx →
        f.QueryStateFromFederation ctx request response w =
            (none,
              ({ db := w.db
                 trace := w.trace ++
                  (joinedHosts.take k).map (QueryStateFromFederation.effect request) },
               { AuthEvents := tx.AuthEvents, StateEvents := tx.StateEvents })) ∧
          ((joinedHosts.take k).map (QueryStateFromFederation.effect request)).length = k) := by
  refine ⟨?_, ?_, ?_⟩
  · intro f ctx request response w joinedHosts k h tx hjoined hk hh hfail hok
    obtain ⟨hs, ht⟩ := split_at_index joinedHosts (k - 1) h hh
    rw [Nat.sub_add_cancel hk] at hs ht
    have hrun := rangeJoinedHosts_first_ok (QueryEventAuthFromFederation.attempt f ctx request)
      (QueryEventAuthFromFederation.effect request)
      (fun (r : QueryEventAuthFromFederationResponse) (tx : RespEventAuth) =>
        { r with Events := tx.AuthEvents })
      (joinedHosts.take (k - 1)) h (joinedHosts.drop k) none w response tx hfail hok
    rw [← hs, ← ht] at hrun
    refine ⟨?_, ?_⟩
    · simp only [FederationInternalAPI.QueryEventAuthFromFederation, hjoined,
        eventAuth_tryHost_eq]
      exact hrun
    · have hlen := congrArg List.length hs
      simp only [List.length_append, List.length_cons, List.length_take, List.length_drop]
        at hlen
      simp only [List.length_map, List.length_take]
      omega
  · intro f ctx request response w joinedHosts k h tx hjoined hk hh hfail hok
    obtain ⟨hs, ht⟩ := split_at_index joinedHosts (k - 1) h hh
    rw [Nat.sub_add_cancel hk] at hs ht
    have hrun := rangeJoinedHosts_first_ok (QueryStateIDsFromFederation.attempt f ctx request)
      (QueryStateIDsFromFederation.effect request)
      (fun (r : QueryStateIDsFromFederationResponse) (tx : RespStateIDs) =>
        { r with AuthEventIDs := tx.AuthEventIDs, StateEventIDs := tx.StateEventIDs })
      (joinedHosts.take (k - 1)) h (joinedHosts.drop k) none w response tx hfail hok
    rw [← hs, ← ht] at hrun
    refine ⟨?_, ?_⟩
    · simp only [FederationInternalAPI.QueryStateIDsFromFederation, hjoined,
        stateIDs_tryHost_eq]
      exact hrun
    · have hlen := congrArg List.length hs
      simp only [List.length_append, List.length_cons, List.length_take, List.length_drop]
        at hlen
      simp only [List.length_map, List.length_take]
      omega
  · intro f ctx request response w joinedHosts k h tx hjoined hk hh hfail hok
    obtain ⟨hs, ht⟩ := split_at_index joinedHosts (k - 1) h hh
    rw [Nat.sub_add_cancel hk] at hs ht
    have hrun := rangeJoinedHosts_first_ok (QueryStateFromFederation.attempt f ctx request)
      (QueryStateFromFederation.effect request)
      (fun (r : QueryStateFromFederationResponse) (tx : RespState) =>
        { r with AuthEvents := tx.AuthEvents, StateEvents := tx.StateEvents })
      (joinedHosts.take (k - 1)) h (joinedHosts.drop k) none w response tx hfail hok
    rw [← hs, ← ht] at hrun
    refine ⟨?_, ?_⟩
    · simp only [FederationInternalAPI.QueryStateFromFederation, hjoined, state_tryHost_eq]
      exact hrun
    · have hlen := congrArg List.length hs
      simp only [List.length_append, List.length_cons, List.length_take, List.length_drop]
        at hlen
      simp only [List.length_map, List.length_take]
      omega

/-- Witness of C1: in room `!room:x` the hosts `a.org` and `b.org` fail and `c.org`, at position
3, answers: each query returns `nil` after exactly the three calls, with the answer of `c.org`
in the response. -/
theorem first_success_wins_witness :
    apiOnlyC.QueryEventAuthFromFederation Context.Background ⟨"!room:x", "$e"⟩ ⟨[]⟩ exWorld =
        (none,
          ({ db := exStore
             trace := [Effect.GetEventAuth "a.org" "!room:x" "$e",
               Effect.GetEventAuth "b.org" "!room:x" "$e",
               Effect.GetEventAuth "c.org" "!room:x" "$e"] },
           { Events := [⟨"auth"⟩] })) ∧
      apiOnlyC.QueryStateIDsFromFederation Context.Background ⟨"!room:x", "$e"⟩ ⟨[], []⟩
          exWorld =
        (none,
          ({ db := exStore
             trace := [Effect.LookupStateIDs "a.org" "!room:x" "$e",
               Effect.LookupStateIDs "b.org" "!room:x" "$e",
               Effect.LookupStateIDs "c.org" "!room:x" "$e"] },
           { AuthEventIDs := ["$a"], StateEventIDs := ["$s"] })) ∧
      apiOnlyC.QueryStateFromFederation Context.Background ⟨"!room:x", "$e", "9"⟩ ⟨[], []⟩
          exWorld =
        (none,
          ({ db := exStore
             trace := [Effect.LookupState "a.org" "!room:x" "$e" "9",
               Effect.LookupState "b.org" "!room:x" "$e" "9",
               Effect.LookupState "c.org" "!room:x" "$e" "9"] },
           { AuthEvents := [⟨"auth"⟩], StateEvents := [⟨"state"⟩] })) :=
  ⟨(first_success_wins.1 apiOnlyC Context.Background ⟨"!room:x", "$e"⟩ ⟨[]⟩ exWorld
      ["a.org", "b.org", "c.org"] 3 "c.org" { AuthEvents := [⟨"auth"⟩] } rfl (by decide) rfl
      ⟨⟨_, rfl⟩, ⟨_, rfl⟩, trivial⟩ rfl).1,
    (first_success_wins.2.1 apiOnlyC Context.Background ⟨"!room:x", "$e"⟩ ⟨[], []⟩ exWorld
      ["a.org", "b.org", "c.org"] 3 "c.org" { StateEventIDs := ["$s"], AuthEventIDs := ["$a"] }
      rfl (by decide) rfl ⟨⟨_, rfl⟩, ⟨_, rfl⟩, trivial⟩ rfl).1,
    (first_success_wins.2.2 apiOnlyC Context.Background ⟨"!room:x", "$e", "9"⟩ ⟨[], []⟩ exWorld
      ["a.org", "b.org", "c.org"] 3 "c.org"
      { StateEvents := [⟨"state"⟩], AuthEvents := [⟨"auth"⟩] }
      rfl (by decide) rfl ⟨⟨_, rfl⟩, ⟨_, rfl⟩, trivial⟩ rfl).1⟩

/-- C2: for each of `QueryEventAuthFromFederation`, `QueryStateIDsFromFederation` and
`QueryStateFromFederation`: if the joined-host list is not empty and every host fails, the last
one with `eLast`, then the call returns a non-nil error that wraps `eLast` (and nothing else),
the trace grows by one call per host in list order, and the response is left as it was. -/
theorem all_fail_returns_last_error :
    (∀ (f : FederationInternalAPI σ) (ctx : Context)
        (request : QueryEventAuthFromFederationRequest)
        (response : QueryEventAuthFromFederationResponse) (w : World σ)
        (joinedHosts : List ServerName) (hne : joinedHosts ≠ []) (eLast : GoError),
        f.db.GetJoinedHostsForRooms ctx w.db [request.RoomID] = .ok joinedHosts →
        AllFail (QueryEventAuthFromFederation.attempt f ctx request)
          (QueryEventAuthFromFederation.effect request) w.trace joinedHosts →
        QueryEventAuthFromFederation.attempt f ctx request
          (w.trace ++ joinedHosts.dropLast.map (QueryEventAuthFromFederation.effect request))
          (joinedHosts.getLast hne) = .error eLast →
        f.QueryEventAuthFromFederation ctx request response w =
            (some (.wrapf "f.doRequest" eLast),
              ({ db := w.db
                 trace := w.trace ++
                  joinedHosts.map (QueryEventAuthFromFederation.effect request) },
               response)) ∧
          (GoError.wrapf "f.doRequest" eLast).Unwrap = some eLast) ∧
    (∀ (f : FederationInternalAPI σ) (ctx : Context)
        (request : QueryStateIDsFromFederationRequest)
        (response : QueryStateIDsFromFederationResponse) (w : World σ)
        (joinedHosts : List ServerName) (hne : joinedHosts ≠ []) (eLast : GoError),
        f.db.GetJoinedHostsForRooms ctx w.db [request.RoomID] = .ok joinedHosts →
        AllFail (QueryStateIDsFromFederation.attempt f ctx request)
          (QueryStateIDsFromFederation.effect request) w.trace joinedHosts →
        QueryStateIDsFromFederation.attempt f ctx request
          (w.trace ++ joinedHosts.dropLast.map (QueryStateIDsFromFederation.effect request))
          (joinedHosts.getLast hne) = .error eLast →
        f.QueryStateIDsFromFederation ctx request response w =
            (some (.wrapf "f.doRequest" eLast),
              ({ db := w.db
                 trace := w.trace ++
                  joinedHosts.map (QueryStateIDsFromFederation.effect request) },
               response)) ∧
          (GoError.wrapf "f.doRequest" eLast).Unwrap = some eLast) ∧
    (∀ (f : FederationInternalAPI σ) (ctx : Context)
        (request : QueryStateFromFederationRequest)
        (response : QueryStateFromFederationResponse) (w : World σ)
        (joinedHosts : List ServerName) (hne : joinedHosts ≠ []) (eLast : GoError),
        f.db.GetJoinedHostsForRooms ctx w.db [request.RoomID] = .ok joinedHosts →
        AllFail (QueryStateFromFederation.attempt f ctx request)
          (QueryStateFromFederation.effect request) w.trace joinedHosts →
        QueryStateFromFederation.attempt f ctx request
          (w.trace ++ joinedHosts.dropLast.map (QueryStateFromFederation.effect request))
          (joinedHosts.getLast hne) = .error eLast →
        f.QueryStateFromFederation ctx request response w =
            (some (.wrapf "f.doRequest" eLast),
              ({ db := w.db
                 trace := w.trace ++
                  joinedHosts.map (QueryStateFromFederation.effect request) },
               response)) ∧
          (GoError.wrapf "f.doRequest" eLast).Unwrap = some eLast) := by
  refine ⟨?_, ?_, ?_⟩
  · intro f ctx request response w joinedHosts hne eLast hjoined hfail hlast
    have hfail2 := hfail
    rw [← List.dropLast_append_getLast hne, allFail_append] at hfail2
    have hrun := rangeJoinedHosts_all_fail (QueryEventAuthFromFederation.attempt f ctx request)
      (QueryEventAuthFromFederation.effect request)
      (fun (r : QueryEventAuthFromFederationResponse) (tx : RespEventAuth) =>
        { r with Events := tx.AuthEvents })
      joinedHosts.dropLast (joinedHosts.getLast hne) none w response eLast hfail2.1 hlast
    rw [List.dropLast_append_getLast hne] at hrun
    refine ⟨?_, rfl⟩
    simp only [FederationInternalAPI.QueryEventAuthFromFederation, hjoined,
      eventAuth_tryHost_eq]
    exact hrun
  · intro f ctx request response w joinedHosts hne eLast hjoined hfail hlast
    have hfail2 := hfail
    rw [← List.dropLast_append_getLast hne, allFail_append] at hfail2
    have hrun := rangeJoinedHosts_all_fail (QueryStateIDsFromFederation.attempt f ctx request)
      (QueryStateIDsFromFederation.effect request)
      (fun (r : QueryStateIDsFromFederationResponse) (tx : RespStateIDs) =>
        { r with AuthEventIDs := tx.AuthEventIDs, StateEventIDs := tx.StateEventIDs })
      joinedHosts.dropLast (joinedHosts.getLast hne) none w response eLast hfail2.1 hlast
    rw [List.dropLast_append_getLast hne] at hrun
    refine ⟨?_, rfl⟩
    simp only [FederationInternalAPI.QueryStateIDsFromFederation, hjoined,
      stateIDs_tryHost_eq]
    exact hrun
  · intro f ctx request response w joinedHosts hne eLast hjoined hfail hlast
    have hfail2 := hfail
    rw [← List.dropLast_append_getLast hne, allFail_append] at hfail2
    have hrun := rangeJoinedHosts_all_fail (QueryStateFromFederation.attempt f ctx request)
      (QueryStateFromFederation.effect request)
      (fun (r : QueryStateFromFederationResponse) (tx : RespState) =>
        { r with AuthEvents := tx.AuthEvents, StateEvents := tx.StateEvents })
      joinedHosts.dropLast (joinedHosts.getLast hne) none w response eLast hfail2.1 hlast
    rw [List.dropLast_append_getLast hne] at hrun
    refine ⟨?_, rfl⟩
    simp only [FederationInternalAPI.QueryStateFromFederation, hjoined, state_tryHost_eq]
    exact hrun

/-- Witness of C2: the hosts `a.org`, `b.org`, `c.org` fail with the distinct errors
`other "a.org"`, `other "b.org"`, `other "c.org"`: each query returns the wrapped error of
`c.org` after the three calls. -/
theorem all_fail_returns_last_error_witness :
    (apiDown.QueryEventAuthFromFederation Context.Background ⟨"!room:x", "$e"⟩ ⟨[]⟩ exWorld =
        (some (.wrapf "f.doRequest" (.other "c.org")),
          ({ db := exStore
             trace := [Effect.GetEventAuth "a.org" "!room:x" "$e",
               Effect.GetEventAuth "b.org" "!room:x" "$e",
               Effect.GetEventAuth "c.org" "!room:x" "$e"] },
           ⟨[]⟩)) ∧
        (GoError.wrapf "f.doRequest" (.other "c.org")).Unwrap = some (.other "c.org")) ∧
      (apiDown.QueryStateIDsFromFederation Context.Background ⟨"!room:x", "$e"⟩ ⟨[], []⟩
          exWorld =
        (some (.wrapf "f.doRequest" (.other "c.org")),
          ({ db := exStore
             trace := [Effect.LookupStateIDs "a.org" "!room:x" "$e",
               Effect.LookupStateIDs "b.org" "!room:x" "$e",
               Effect.LookupStateIDs "c.org" "!room:x" "$e"] },
           ⟨[], []⟩)) ∧
        (GoError.wrapf "f.doRequest" (.other "c.org")).Unwrap = some (.other "c.org")) ∧
      (apiDown.QueryStateFromFederation Context.Background ⟨"!room:x", "$e", "9"⟩ ⟨[], []⟩
          exWorld =
        (some (.wrapf "f.doRequest" (.other "c.org")),
          ({ db := exStore
             trace := [Effect.LookupState "a.org" "!room:x" "$e" "9",
               Effect.LookupState "b.org" "!room:x" "$e" "9",
               Effect.LookupState "c.org" "!room:x" "$e" "9"] },
           ⟨[], []⟩)) ∧
        (GoError.wrapf "f.doRequest" (.other "c.org")).Unwrap = some (.other "c.org")) :=
  ⟨all_fail_returns_last_error.1 apiDown Context.Background ⟨"!room:x", "$e"⟩ ⟨[]⟩ exWorld
      ["a.org", "b.org", "c.org"] (by simp) (.other "c.org") rfl
      ⟨⟨_, rfl⟩, ⟨_, rfl⟩, ⟨_, rfl⟩, trivial⟩ rfl,
    all_fail_returns_last_error.2.1 apiDown Context.Background ⟨"!room:x", "$e"⟩ ⟨[], []⟩
      exWorld ["a.org", "b.org", "c.org"] (by simp) (.other "c.org") rfl
      ⟨⟨_, rfl⟩, ⟨_, rfl⟩, ⟨_, rfl⟩, trivial⟩ rfl,
    all_fail_returns_last_error.2.2 apiDown Context.Background ⟨"!room:x", "$e", "9"⟩ ⟨[], []⟩
      exWorld ["a.org", "b.org", "c.org"] (by simp) (.other "c.org") rfl
      ⟨⟨_, rfl⟩, ⟨_, rfl⟩, ⟨_, rfl⟩, trivial⟩ rfl⟩

/-- C3, as stated, fails: for room `!empty:x` the joined-host list is empty, and each of the
three queries returns `nil` instead of a non-nil error. -/
theorem empty_hosts_counterexample :
    memDatabase.GetJoinedHostsForRooms Context.Background exStore ["!empty:x"] = .ok [] ∧
      (apiOnlyC.QueryEventAuthFromFederation Context.Background ⟨"!empty:x", "$e"⟩ ⟨[]⟩
        exWorld).1 = none ∧
      (apiOnlyC.QueryStateIDsFromFederation Context.Background ⟨"!empty:x", "$e"⟩ ⟨[], []⟩
        exWorld).1 = none ∧
      (apiOnlyC.QueryStateFromFederation Context.Background ⟨"!empty:x", "$e", "9"⟩ ⟨[], []⟩
        exWorld).1 = none :=
  ⟨rfl, rfl, rfl, rfl⟩

/-- C3, amended: for each of the three queries, when the joined-host list obtained for the room
is empty the call returns `nil`, the transport is never invoked (the world, and with it the
trace, is unchanged) and the response is left as it was. -/
theorem empty_hosts_returns_nil :
    (∀ (f : FederationInternalAPI σ) (ctx : Context)
        (request : QueryEventAuthFromFederationRequest)
        (response : QueryEventAuthFromFederationResponse) (w : World σ),
        f.db.GetJoinedHostsForRooms ctx w.db [request.RoomID] = .ok [] →
        f.QueryEventAuthFromFederation ctx request response w = (none, (w, response))) ∧
    (∀ (f : FederationInternalAPI σ) (ctx : Context)
        (request : QueryStateIDsFromFederationRequest)
        (response : QueryStateIDsFromFederationResponse) (w : World σ),
        f.db.GetJoinedHostsForRooms ctx w.db [request.RoomID] = .ok [] →
        f.QueryStateIDsFromFederation ctx request response w = (none, (w, response))) ∧
    (∀ (f : FederationInternalAPI σ) (ctx : Context)
        (request : QueryStateFromFederationRequest)
        (response : QueryStateFromFederationResponse) (w : World σ),
        f.db.GetJoinedHostsForRooms ctx w.db [request.RoomID] = .ok [] →
        f.QueryStateFromFederation ctx request response w = (none, (w, response))) := by
  refine ⟨?_, ?_, ?_⟩
  · intro f ctx request response w hjoined
    simp only [FederationInternalAPI.QueryEventAuthFromFederation, hjoined, rangeJoinedHosts]
  · intro f ctx request response w hjoined
    simp only [FederationInternalAPI.QueryStateIDsFromFederation, hjoined, rangeJoinedHosts]
  · intro f ctx request response w hjoined
    simp only [FederationInternalAPI.QueryStateFromFederation, hjoined, rangeJoinedHosts]

/-- Witness of the amended C3: room `!empty:x` of the example store. -/
theorem empty_hosts_returns_nil_witness :
    apiOnlyC.QueryEventAuthFromFederation Context.Background ⟨"!empty:x", "$e"⟩ ⟨[⟨"old"⟩]⟩
        exWorld = (none, (exWorld, ⟨[⟨"old"⟩]⟩)) ∧
      apiOnlyC.QueryStateIDsFromFederation Context.Background ⟨"!empty:x", "$e"⟩ ⟨["$o"], []⟩
        exWorld = (none, (exWorld, ⟨["$o"], []⟩)) ∧
      apiOnlyC.QueryStateFromFederation Context.Background ⟨"!empty:x", "$e", "9"⟩
        ⟨[⟨"old"⟩], []⟩ exWorld = (none, (exWorld, ⟨[⟨"old"⟩], []⟩)) :=
  ⟨empty_hosts_returns_nil.1 apiOnlyC Context.Background ⟨"!empty:x", "$e"⟩ ⟨[⟨"old"⟩]⟩
      exWorld rfl,
    empty_hosts_returns_nil.2.1 apiOnlyC Context.Background ⟨"!empty:x", "$e"⟩ ⟨["$o"], []⟩
      exWorld rfl,
    empty_hosts_returns_nil.2.2 apiOnlyC Context.Background ⟨"!empty:x", "$e", "9"⟩
      ⟨[⟨"old"⟩], []⟩ exWorld rfl⟩

/-- C10, as stated, fails: the caller's context is cancelled and the first attempt, against
`a.org`, fails with `context.Canceled`; each of the three queries nevertheless goes on to call
`b.org` and `c.org`, two further transport invocations, before it returns the cancellation. -/
theorem cancelled_context_counterexample :
    ctxCanceled.err = some .Canceled ∧
      QueryEventAuthFromFederation.attempt apiCtx ctxCanceled ⟨"!room:x", "$e"⟩ [] "a.org" =
        .error .Canceled ∧
      apiCtx.QueryEventAuthFromFederation ctxCanceled ⟨"!room:x", "$e"⟩ ⟨[]⟩ exWorld =
        (some (.wrapf "f.doRequest" .Canceled),
          ({ db := exStore
             trace := [Effect.GetEventAuth "a.org" "!room:x" "$e",
               Effect.GetEventAuth "b.org" "!room:x" "$e",
               Effect.GetEventAuth "c.org" "!room:x" "$e"] },
           ⟨[]⟩)) ∧
      apiCtx.QueryStateIDsFromFederation ctxCanceled ⟨"!room:x", "$e"⟩ ⟨[], []⟩ exWorld =
        (some (.wrapf "f.doRequest" .Canceled),
          ({ db := exStore
             trace := [Effect.LookupStateIDs "a.org" "!room:x" "$e",
               Effect.LookupStateIDs "b.org" "!room:x" "$e",
               Effect.LookupStateIDs "c.org" "!room:x" "$e"] },
           ⟨[], []⟩)) ∧
      apiCtx.QueryStateFromFederation ctxCanceled ⟨"!room:x", "$e", "9"⟩ ⟨[], []⟩ exWorld =
        (some (.wrapf "f.doRequest" .Canceled),
          ({ db := exStore
             trace := [Effect.LookupState "a.org" "!room:x" "$e" "9",
               Effect.LookupState "b.org" "!room:x" "$e" "9",
               Effect.LookupState "c.org" "!room:x" "$e" "9"] },
           ⟨[], []⟩)) :=
  ⟨rfl, rfl, rfl, rfl, rfl⟩

/-- C10, amended: for each of the three queries, the host loop does not look at the caller's
context.  When the context is done with error `cerr`, the hosts `pre` have failed and the
attempt against `h` fails with `cerr`, the loop still invokes the transport for the next host
of the list: the trace after the call starts with the calls to `pre`, to `h` and to `next`. -/
theorem cancelled_context_next_host_asked :
    (∀ (f : FederationInternalAPI σ) (ctx : Context)
        (request : QueryEventAuthFromFederationRequest)
        (response : QueryEventAuthFromFederationResponse) (w : World σ)
        (pre : List ServerName) (h next : ServerName) (post : List ServerName)
        (cerr : GoError),
        ctx.err = some cerr →
        f.db.GetJoinedHostsForRooms ctx w.db [request.RoomID] =
          .ok (pre ++ h :: next :: post) →
        AllFail (QueryEventAuthFromFederation.attempt f ctx request)
          (QueryEventAuthFromFederation.effect request) w.trace pre →
        QueryEventAuthFromFederation.attempt f ctx request
          (w.trace ++ pre.map (QueryEventAuthFromFederation.effect request)) h =
            .error cerr →
        (w.trace ++ (pre ++ [h, next]).map (QueryEventAuthFromFederation.effect request)) <+:
          (f.QueryEventAuthFromFederation ctx request response w).2.1.trace) ∧
    (∀ (f : FederationInternalAPI σ) (ctx : Context)
        (request : QueryStateIDsFromFederationRequest)
        (response : QueryStateIDsFromFederationResponse) (w : World σ)
        (pre : List ServerName) (h next : ServerName) (post : List ServerName)
        (cerr : GoError),
        ctx.err = some cerr →
        f.db.GetJoinedHostsForRooms ctx w.db [request.RoomID] =
          .ok (pre ++ h :: next :: post) →
        AllFail (QueryStateIDsFromFederation.attempt f ctx request)
          (QueryStateIDsFromFederation.effect request) w.trace pre →
        QueryStateIDsFromFederation.attempt f ctx request
          (w.trace ++ pre.map (QueryStateIDsFromFederation.effect request)) h =
            .error cerr →
        (w.trace ++ (pre ++ [h, next]).map (QueryStateIDsFromFederation.effect request)) <+:
          (f.QueryStateIDsFromFederation ctx request response w).2.1.trace) ∧
    (∀ (f : FederationInternalAPI σ) (ctx : Context)
        (request : QueryStateFromFederationRequest)
        (response : QueryStateFromFederationResponse) (w : World σ)
        (pre : List ServerName) (h next : ServerName) (post : List ServerName)
        (cerr : GoError),
        ctx.err = some cerr →
        f.db.GetJoinedHostsForRooms ctx w.db [request.RoomID] =
          .ok (pre ++ h :: next :: post) →
        AllFail (QueryStateFromFederation.attempt f ctx request)
          (QueryStateFromFederation.effect request) w.trace pre →
        QueryStateFromFederation.attempt f ctx request
          (w.trace ++ pre.map (QueryStateFromFederation.effect request)) h =
            .error cerr →
        (w.trace ++ (pre ++ [h, next]).map (QueryStateFromFederation.effect request)) <+:
          (f.QueryStateFromFederation ctx request response w).2.1.trace) := by
  refine ⟨?_, ?_, ?_⟩
  · intro f ctx request response w pre h next post cerr _ hjoined hfail hlast
    simp only [FederationInternalAPI.QueryEventAuthFromFederation, hjoined,
      eventAuth_tryHost_eq]
    exact rangeJoinedHosts_asks_next _ _ _ pre h next post none w response cerr hfail hlast
  · intro f ctx request response w pre h next post cerr _ hjoined hfail hlast
    simp only [FederationInternalAPI.QueryStateIDsFromFederation, hjoined,
      stateIDs_tryHost_eq]
    exact rangeJoinedHosts_asks_next _ _ _ pre h next post none w response cerr hfail hlast
  · intro f ctx request response w pre h next post cerr _ hjoined hfail hlast
    simp only [FederationInternalAPI.QueryStateFromFederation, hjoined, state_tryHost_eq]
    exact rangeJoinedHosts_asks_next _ _ _ pre h next post none w response cerr hfail hlast

/-- Witness of the amended C10: under the cancelled context the attempt against `a.org` fails
with `context.Canceled`, and `b.org` is called next. -/
theorem cancelled_context_next_host_asked_witness :
    ([Effect.GetEventAuth "a.org" "!room:x" "$e", Effect.GetEventAuth "b.org" "!room:x" "$e"] <+:
        (apiCtx.QueryEventAuthFromFederation ctxCanceled ⟨"!room:x", "$e"⟩ ⟨[]⟩
          exWorld).2.1.trace) ∧
      ([Effect.LookupStateIDs "a.org" "!room:x" "$e",
          Effect.LookupStateIDs "b.org" "!room:x" "$e"] <+:
        (apiCtx.QueryStateIDsFromFederation ctxCanceled ⟨"!room:x", "$e"⟩ ⟨[], []⟩
          exWorld).2.1.trace) ∧
      ([Effect.LookupState "a.org" "!room:x" "$e" "9",
          Effect.LookupState "b.org" "!room:x" "$e" "9"] <+:
        (apiCtx.QueryStateFromFederation ctxCanceled ⟨"!room:x", "$e", "9"⟩ ⟨[], []⟩
          exWorld).2.1.trace) :=
  ⟨cancelled_context_next_host_asked.1 apiCtx ctxCanceled ⟨"!room:x", "$e"⟩ ⟨[]⟩ exWorld
      [] "a.org" "b.org" ["c.org"] .Canceled rfl rfl trivial rfl,
    cancelled_context_next_host_asked.2.1 apiCtx ctxCanceled ⟨"!room:x", "$e"⟩ ⟨[], []⟩
      exWorld [] "a.org" "b.org" ["c.org"] .Canceled rfl rfl trivial rfl,
    cancelled_context_next_host_asked.2.2 apiCtx ctxCanceled ⟨"!room:x", "$e", "9"⟩ ⟨[], []⟩
      exWorld [] "a.org" "b.org" ["c.org"] .Canceled rfl rfl trivial rfl⟩

/-! ## The notary: the cache-first pass -/

section CachePass

variable (a : FederationInternalAPI σ) (ctx : Context) (serverName : ServerName) (db : σ)

/-- When every entry still to visit is satisfied by the store, the loop succeeds and appends the
first stored entry of each key id, in order. -/
theorem cacheLoop_ok (l : List (KeyID × PublicKeyNotaryQueryCriteria))
    (results : List ServerKeys)
    (h : ∀ p ∈ l, ∃ sk rest, (a.db.GetNotaryKeys ctx db serverName [p.1]).1 = sk :: rest ∧
      (p.2.MinimumValidUntilTS = 0 ∨ p.2.MinimumValidUntilTS ≤ sk.ValidUntilTS)) :
    fetchServerKeysFromCache.loop a ctx serverName db l results =
      .ok (results ++
        l.filterMap (fun p => (a.db.GetNotaryKeys ctx db serverName [p.1]).1.head?)) := by
  induction l generalizing results with
  | nil => simp [fetchServerKeysFromCache.loop]
  | cons p l ih =>
    obtain ⟨keyID, criteria⟩ := p
    obtain ⟨sk, rest, hread, hvalid⟩ := h (keyID, criteria) (List.mem_cons_self _ _)
    have hcond : ¬ (criteria.MinimumValidUntilTS ≠ 0 ∧
        sk.ValidUntilTS < criteria.MinimumValidUntilTS) := by
      rintro ⟨hne, hlt⟩
      rcases hvalid with h0 | hle
      · exact hne h0
      · exact absurd hlt (Nat.not_lt.2 hle)
    simp only at hread
    rw [fetchServerKeysFromCache.loop, hread]
    simp only [hcond, if_false]
    rw [ih _ (fun q hq => h q (List.mem_cons_of_mem _ hq))]
    simp [hread]

/-- When the loop succeeds, every entry it visited is satisfied by the store. -/
theorem cacheLoop_satisfied (l : List (KeyID × PublicKeyNotaryQueryCriteria))
    (results out : List ServerKeys)
    (h : fetchServerKeysFromCache.loop a ctx serverName db l results = .ok out) :
    ∀ p ∈ l, ∃ sk rest, (a.db.GetNotaryKeys ctx db serverName [p.1]).1 = sk :: rest ∧
      (p.2.MinimumValidUntilTS = 0 ∨ p.2.MinimumValidUntilTS ≤ sk.ValidUntilTS) := by
  induction l generalizing results with
  | nil => simp
  | cons p l ih =>
    obtain ⟨keyID, criteria⟩ := p
    rw [fetchServerKeysFromCache.loop] at h
    cases hread : (a.db.GetNotaryKeys ctx db serverName [keyID]).1 with
    | nil => simp [hread] at h
    | cons sk rest =>
      simp only [hread] at h
      by_cases hcond : criteria.MinimumValidUntilTS ≠ 0 ∧
          sk.ValidUntilTS < criteria.MinimumValidUntilTS
      · simp [hcond] at h
      · simp only [hcond, if_false] at h
        intro q hq
        rcases List.mem_cons.1 hq with rfl | hq
        · refine ⟨sk, rest, hread, ?_⟩
          by_cases h0 : criteria.MinimumValidUntilTS = 0
          · exact Or.inl h0
          · exact Or.inr (Nat.not_lt.1 (fun hlt => hcond ⟨h0, hlt⟩))
        · exact ih _ h q hq

/-- When some entry is missing or stale, the loop fails. -/
theorem cacheLoop_error (l : List (KeyID × PublicKeyNotaryQueryCriteria))
    (results : List ServerKeys)
    (h : ∃ p ∈ l, MissingOrStale a ctx db serverName p) :
    ∃ e, fetchServerKeysFromCache.loop a ctx serverName db l results = .error e := by
  cases hrun : fetchServerKeysFromCache.loop a ctx serverName db l results with
  | error e => exact ⟨e, rfl⟩
  | ok out =>
    exfalso
    obtain ⟨p, hp, hbad⟩ := h
    obtain ⟨sk, rest, hread, hvalid⟩ := cacheLoop_satisfied a ctx serverName db l results out hrun p hp
    rcases hbad with hnil | ⟨sk2, rest2, hread2, hne, hlt⟩
    · rw [hread] at hnil
      exact List.cons_ne_nil _ _ hnil
    · rw [hread] at hread2
      obtain ⟨rfl, -⟩ := List.cons.inj hread2
      rcases hvalid with h0 | hle
      · exact hne h0
      · exact absurd hlt (Nat.not_lt.2 hle)

/-- The entries collected by a successful pass are, key id by key id, the first stored ones. -/
theorem filterMap_head_of_satisfied (l : List (KeyID × PublicKeyNotaryQueryCriteria))
    (h : ∀ p ∈ l, ∃ sk rest, (a.db.GetNotaryKeys ctx db serverName [p.1]).1 = sk :: rest ∧
      (p.2.MinimumValidUntilTS = 0 ∨ p.2.MinimumValidUntilTS ≤ sk.ValidUntilTS)) :
    (l.filterMap (fun p => (a.db.GetNotaryKeys ctx db serverName [p.1]).1.head?)).map some =
      l.map (fun p => (a.db.GetNotaryKeys ctx db serverName [p.1]).1.head?) := by
  induction l with
  | nil => simp
  | cons p l ih =>
    obtain ⟨sk, rest, hread, -⟩ := h p (List.mem_cons_self _ _)
    have hhead : (a.db.GetNotaryKeys ctx db serverName [p.1]).1.head? = some sk := by
      rw [hread]
      rfl
    simp only [List.filterMap_cons, hhead, List.map_cons,
      ih (fun q hq => h q (List.mem_cons_of_mem _ hq))]

end CachePass

/-- The direct fetch is one `GetServerKeys` call under the 30-second context. -/
theorem fetchServerKeysDirectly_eq (a : FederationInternalAPI σ) (ctx : Context)
    (serverName : ServerName) (w : World σ) :
    a.fetchServerKeysDirectly ctx serverName w =
      (a.federation.GetServerKeys w.trace (ctx.WithTimeout 30) serverName,
        { w with trace := w.trace ++ [Effect.GetServerKeys serverName] }) := by
  simp only [FederationInternalAPI.fetchServerKeysDirectly, doRequest, callGetServerKeys]
  cases a.federation.GetServerKeys w.trace (ctx.WithTimeout 30) serverName <;> rfl

/-- C4: the cache-first pass `fetchServerKeysFromCache` succeeds if and only if, for every
(key id, criterion) pair of the request, the store returns at least one entry for the key id
and either `MinimumValidUntilTS` is 0 or the `ValidUntilTS` of the (first) entry is greater
than or equal to it.  In particular, for a request of two key ids of which one has no stored
entry, the pass fails as a whole: it returns an error and no entries. -/
theorem fetchServerKeysFromCache_succeeds_iff (a : FederationInternalAPI σ) (ctx : Context)
    (req : QueryServerKeysRequest) (w : World σ) :
    ((∃ results, a.fetchServerKeysFromCache ctx req w = .ok results) ↔
      ∀ p ∈ req.KeyIDToCriteria,
        ∃ sk rest, (a.db.GetNotaryKeys ctx w.db req.ServerName [p.1]).1 = sk :: rest ∧
          (p.2.MinimumValidUntilTS = 0 ∨ p.2.MinimumValidUntilTS ≤ sk.ValidUntilTS)) ∧
      (∀ k1 c1 k2 c2, req.KeyIDToCriteria = [(k1, c1), (k2, c2)] →
        ((a.db.GetNotaryKeys ctx w.db req.ServerName [k1]).1 = [] ∨
          (a.db.GetNotaryKeys ctx w.db req.ServerName [k2]).1 = []) →
        ∃ e, a.fetchServerKeysFromCache ctx req w = .error e) := by
  refine ⟨⟨?_, ?_⟩, ?_⟩
  · rintro ⟨results, hres⟩
    exact cacheLoop_satisfied a ctx req.ServerName w.db req.KeyIDToCriteria [] results hres
  · intro h
    exact ⟨_, cacheLoop_ok a ctx req.ServerName w.db req.KeyIDToCriteria [] h⟩
  · intro k1 c1 k2 c2 hreq hmiss
    apply cacheLoop_error a ctx req.ServerName w.db req.KeyIDToCriteria []
    rw [hreq]
    rcases hmiss with h1 | h2
    · exact ⟨(k1, c1), by simp, Or.inl h1⟩
    · exact ⟨(k2, c2), by simp, Or.inl h2⟩

/-- Witness of C4: the store holds an entry valid until 100 for `ed25519:1` only.  A request
for that key id with minimum 100 (equality) passes; a request for `ed25519:1` and `ed25519:2`
fails as a whole. -/
theorem fetchServerKeysFromCache_succeeds_iff_witness :
    (∃ results, apiDown.fetchServerKeysFromCache Context.Background
        ⟨"origin.org", [("ed25519:1", ⟨100⟩)]⟩ ⟨notaryStore, []⟩ = .ok results) ∧
      (∃ e, apiDown.fetchServerKeysFromCache Context.Background
        ⟨"origin.org", [("ed25519:1", ⟨100⟩), ("ed25519:2", ⟨0⟩)]⟩ ⟨notaryStore, []⟩ =
          .error e) :=
  ⟨(fetchServerKeysFromCache_succeeds_iff apiDown Context.Background
      ⟨"origin.org", [("ed25519:1", ⟨100⟩)]⟩ ⟨notaryStore, []⟩).1.2
      (by
        intro p hp
        rw [List.mem_singleton.1 hp]
        exact ⟨oldKeys, [], rfl, Or.inr (by decide)⟩),
    (fetchServerKeysFromCache_succeeds_iff apiDown Context.Background
      ⟨"origin.org", [("ed25519:1", ⟨100⟩), ("ed25519:2", ⟨0⟩)]⟩ ⟨notaryStore, []⟩).2
      "ed25519:1" ⟨100⟩ "ed25519:2" ⟨0⟩ rfl (Or.inr rfl)⟩

/-! ## The notary: `QueryServerKeys` -/

/-- A request the store satisfies is answered from the store, and the world is untouched. -/
theorem QueryServerKeys_of_satisfied (a : FederationInternalAPI σ) (ctx : Context)
    (req : QueryServerKeysRequest) (res : QueryServerKeysResponse) (w : World σ)
    (hsat : ∀ p ∈ req.KeyIDToCriteria,
      ∃ sk rest, (a.db.GetNotaryKeys ctx w.db req.ServerName [p.1]).1 = sk :: rest ∧
        (p.2.MinimumValidUntilTS = 0 ∨ p.2.MinimumValidUntilTS ≤ sk.ValidUntilTS)) :
    a.QueryServerKeys ctx req res w =
      (none, (w, QueryServerKeysResponse.mk (req.KeyIDToCriteria.filterMap
        (fun p => (a.db.GetNotaryKeys ctx w.db req.ServerName [p.1]).1.head?)))) := by
  simp only [FederationInternalAPI.QueryServerKeys, FederationInternalAPI.fetchServerKeysFromCache,
    cacheLoop_ok a ctx req.ServerName w.db req.KeyIDToCriteria [] hsat, List.nil_append]

/-- After a failed cache-first pass and a failed direct fetch, the outcome is decided by the
best-effort read alone. -/
theorem QueryServerKeys_of_fetch_error (a : FederationInternalAPI σ) (ctx : Context)
    (req : QueryServerKeysRequest) (res : QueryServerKeysResponse) (w : World σ)
    (e err : GoError)
    (hcache : a.fetchServerKeysFromCache ctx req w = .error e)
    (hfetch : a.federation.GetServerKeys w.trace (ctx.WithTimeout 30) req.ServerName =
      .error err) :
    a.QueryServerKeys ctx req res w =
      match a.db.GetNotaryKeys ctx w.db req.ServerName req.KeyIDs with
      | (_, some dbErr) =>
        (some (.notary err dbErr),
          ({ w with trace := w.trace ++ [Effect.GetServerKeys req.ServerName] }, res))
      | (serverKeysResponses, none) =>
        (none, ({ w with trace := w.trace ++ [Effect.GetServerKeys req.ServerName] },
          { ServerKeys := serverKeysResponses })) := by
  simp only [FederationInternalAPI.QueryServerKeys, hcache, fetchServerKeysDirectly_eq, hfetch]

/-- After a failed cache-first pass and a successful direct fetch, the fetched keys are written
and returned. -/
theorem QueryServerKeys_of_fetch_ok (a : FederationInternalAPI σ) (ctx : Context)
    (req : QueryServerKeysRequest) (res : QueryServerKeysResponse) (w : World σ)
    (e : GoError) (sk : ServerKeys)
    (hcache : a.fetchServerKeysFromCache ctx req w = .error e)
    (hfetch : a.federation.GetServerKeys w.trace (ctx.WithTimeout 30) req.ServerName =
      .ok sk) :
    a.QueryServerKeys ctx req res w =
      (none,
        ({ db := (a.db.UpdateNotaryKeys Context.Background w.db req.ServerName sk).2
           trace := w.trace ++
            [Effect.GetServerKeys req.ServerName, Effect.UpdateNotaryKeys req.ServerName sk] },
         { ServerKeys := [sk] })) := by
  simp only [FederationInternalAPI.QueryServerKeys, hcache, fetchServerKeysDirectly_eq, hfetch,
    callUpdateNotaryKeys, List.append_assoc, List.singleton_append]

/-- C5: when every requested key id has a stored entry that satisfies its criterion,
`QueryServerKeys` returns `nil`; `res.ServerKeys` holds, key id by key id in request order, the
first stored entry of that key id; the world is left exactly as it was, so `GetServerKeys` was
not called and the store was not written.  Hence any number of repetitions of the call return
these same entries and leave the world as it was, and a call that visits the map in another
order returns the same entries up to that order. -/
theorem cache_hit_is_pure (a : FederationInternalAPI σ) (ctx : Context)
    (req : QueryServerKeysRequest) (res : QueryServerKeysResponse) (w : World σ)
    (hsat : ∀ p ∈ req.KeyIDToCriteria,
      ∃ sk rest, (a.db.GetNotaryKeys ctx w.db req.ServerName [p.1]).1 = sk :: rest ∧
        (p.2.MinimumValidUntilTS = 0 ∨ p.2.MinimumValidUntilTS ≤ sk.ValidUntilTS)) :
    ∃ results : List ServerKeys,
      a.QueryServerKeys ctx req res w = (none, (w, { ServerKeys := results })) ∧
      results.map some = req.KeyIDToCriteria.map
        (fun p => (a.db.GetNotaryKeys ctx w.db req.ServerName [p.1]).1.head?) ∧
      (∀ n, QueryServerKeysRepeated a ctx req n res w =
        (List.replicate n (none, { ServerKeys := results }), w)) ∧
      (∀ req2 : QueryServerKeysRequest, req2.ServerName = req.ServerName →
        req2.KeyIDToCriteria.Perm req.KeyIDToCriteria →
        ∃ results2, a.QueryServerKeys ctx req2 res w = (none, (w, { ServerKeys := results2 })) ∧
          results2.Perm results) := by
  refine ⟨_, QueryServerKeys_of_satisfied a ctx req res w hsat,
    filterMap_head_of_satisfied a ctx req.ServerName w.db req.KeyIDToCriteria hsat, ?_, ?_⟩
  · intro n
    induction n generalizing res with
    | zero => rfl
    | succ n ih =>
      rw [QueryServerKeysRepeated]
      simp only [QueryServerKeys_of_satisfied a ctx req res w hsat, ih, List.replicate_succ]
  · intro req2 hname hperm
    have hsat2 : ∀ p ∈ req2.KeyIDToCriteria,
        ∃ sk rest, (a.db.GetNotaryKeys ctx w.db req2.ServerName [p.1]).1 = sk :: rest ∧
          (p.2.MinimumValidUntilTS = 0 ∨ p.2.MinimumValidUntilTS ≤ sk.ValidUntilTS) := by
      intro p hp
      rw [hname]
      exact hsat p (hperm.mem_iff.1 hp)
    refine ⟨_, QueryServerKeys_of_satisfied a ctx req2 res w hsat2, ?_⟩
    rw [hname]
    exact hperm.filterMap _

/-- Witness of C5: the store holds `oldKeys`, valid until 100, for `ed25519:1`, and the request
asks for a minimum of 100. -/
theorem cache_hit_is_pure_witness :
    ∃ results : List ServerKeys,
      apiDown.QueryServerKeys Context.Background ⟨"origin.org", [("ed25519:1", ⟨100⟩)]⟩ ⟨[]⟩
          ⟨notaryStore, []⟩ = (none, (⟨notaryStore, []⟩, { ServerKeys := results })) ∧
      results.map some = [some oldKeys] ∧
      (∀ n, QueryServerKeysRepeated apiDown Context.Background
          ⟨"origin.org", [("ed25519:1", ⟨100⟩)]⟩ n ⟨[]⟩ ⟨notaryStore, []⟩ =
        (List.replicate n (none, { ServerKeys := results }), ⟨notaryStore, []⟩)) ∧
      (∀ req2 : QueryServerKeysRequest, req2.ServerName = "origin.org" →
        req2.KeyIDToCriteria.Perm [("ed25519:1", ⟨100⟩)] →
        ∃ results2, apiDown.QueryServerKeys Context.Background req2 ⟨[]⟩ ⟨notaryStore, []⟩ =
            (none, (⟨notaryStore, []⟩, { ServerKeys := results2 })) ∧
          results2.Perm results) :=
  cache_hit_is_pure apiDown Context.Background ⟨"origin.org", [("ed25519:1", ⟨100⟩)]⟩ ⟨[]⟩
    ⟨notaryStore, []⟩
    (by
      intro p hp
      rw [List.mem_singleton.1 hp]
      exact ⟨oldKeys, [], rfl, Or.inr (by decide)⟩)

/-- The store modelled from the spec keeps its writes. -/
theorem memDatabase_keepsWrites : memDatabase.KeepsWrites := by
  intro ctx ctx2 s serverName sk hw kv hkv
  cases hwe : s.writeErr with
  | some e => simp [memDatabase, hwe] at hw
  | none =>
    have hfind : ∀ (vk : List (KeyID × String)), kv ∈ vk →
        ∃ x, (vk.map (fun (q : KeyID × String) => (serverName, q.1, sk)) ++
            s.notaryKeys).find? (fun e => e.1 == serverName && e.2.1 == kv.1) = some x ∧
          x.2.2 = sk := by
      intro vk
      induction vk with
      | nil => intro h; simp at h
      | cons q vk ih =>
        intro hmem
        by_cases hq : q.1 = kv.1
        · exact ⟨(serverName, q.1, sk), by simp [hq], rfl⟩
        · rcases List.mem_cons.1 hmem with heq | hin
          · exact absurd (by rw [heq]) hq
          · obtain ⟨x, hx, hsk⟩ := ih hin
            exact ⟨x, by simp [hq, hx], hsk⟩
    obtain ⟨x, hx, hsk⟩ := hfind sk.VerifyKeys hkv
    have hstate : (memDatabase.UpdateNotaryKeys ctx s serverName sk).2 =
        { s with notaryKeys :=
          sk.VerifyKeys.map (fun (q : KeyID × String) => (serverName, q.1, sk)) ++
            s.notaryKeys } := by
      simp only [memDatabase, hwe]
    have hlatest : MemStore.latest
        { s with notaryKeys :=
          sk.VerifyKeys.map (fun (q : KeyID × String) => (serverName, q.1, sk)) ++
            s.notaryKeys } serverName kv.1 = some sk := by
      simp only [MemStore.latest, hx, Option.map_some', hsk]
    rw [hstate]
    show ([kv.1].filterMap (fun k => MemStore.latest _ serverName k)).head? = some sk
    simp only [List.filterMap_cons, hlatest, List.filterMap_nil, List.head?_cons]

/-- C6, as stated, fails: the stored entry is stale, the direct fetch answers with `newKeys`,
and `QueryServerKeys` returns `nil` with `[newKeys]` after one `GetServerKeys` call and one
`UpdateNotaryKeys` write of `newKeys`; but the write fails, and the store afterwards still
holds `oldKeys`, not the new entry, for the key id. -/
theorem failed_write_counterexample :
    MissingOrStale apiKeys Context.Background notaryStoreReadOnly "origin.org"
        ("ed25519:1", ⟨200⟩) ∧
      fedKeys.GetServerKeys [] (Context.Background.WithTimeout 30) "origin.org" =
        .ok newKeys ∧
      apiKeys.QueryServerKeys Context.Background ⟨"origin.org", [("ed25519:1", ⟨200⟩)]⟩ ⟨[]⟩
          ⟨notaryStoreReadOnly, []⟩ =
        (none,
          ({ db := notaryStoreReadOnly
             trace := [Effect.GetServerKeys "origin.org",
              Effect.UpdateNotaryKeys "origin.org" newKeys] },
           { ServerKeys := [newKeys] })) ∧
      memDatabase.GetNotaryKeys Context.Background
        (apiKeys.QueryServerKeys Context.Background ⟨"origin.org", [("ed25519:1", ⟨200⟩)]⟩
          ⟨[]⟩ ⟨notaryStoreReadOnly, []⟩).2.1.db "origin.org" ["ed25519:1"] =
        ([oldKeys], none) ∧
      oldKeys ≠ newKeys :=
  ⟨Or.inr ⟨oldKeys, [], rfl, by decide, by decide⟩, rfl, rfl, rfl, by decide⟩

/-- C6, amended: when some requested key id is missing from the store or its stored entry is
stale (`ValidUntilTS` strictly less than a non-zero `MinimumValidUntilTS`), and the direct fetch
answers with `sk`, then `QueryServerKeys` returns `nil`, `res.ServerKeys` is exactly `[sk]`, and
the trace grows by exactly one `GetServerKeys` call followed by one `UpdateNotaryKeys` write of
`sk`; the store the call leaves behind is the one that write produced.  When that write reports
success and the store keeps its writes, the store then holds the new entry: a read for any key
id of `sk` returns `sk` first. -/
theorem refetch_on_miss_or_stale (a : FederationInternalAPI σ) (ctx : Context)
    (req : QueryServerKeysRequest) (res : QueryServerKeysResponse) (w : World σ)
    (sk : ServerKeys)
    (hbad : ∃ p ∈ req.KeyIDToCriteria, MissingOrStale a ctx w.db req.ServerName p)
    (hfetch : a.federation.GetServerKeys w.trace (ctx.WithTimeout 30) req.ServerName =
      .ok sk) :
    a.QueryServerKeys ctx req res w =
        (none,
          ({ db := (a.db.UpdateNotaryKeys Context.Background w.db req.ServerName sk).2
             trace := w.trace ++
              [Effect.GetServerKeys req.ServerName, Effect.UpdateNotaryKeys req.ServerName sk] },
           { ServerKeys := [sk] })) ∧
      ((a.db.UpdateNotaryKeys Context.Background w.db req.ServerName sk).1 = none →
        a.db.KeepsWrites →
        ∀ (ctx2 : Context), ∀ kv ∈ sk.VerifyKeys,
          (a.db.GetNotaryKeys ctx2 (a.QueryServerKeys ctx req res w).2.1.db req.ServerName
            [kv.1]).1.head? = some sk) := by
  obtain ⟨e, he⟩ := cacheLoop_error a ctx req.ServerName w.db req.KeyIDToCriteria [] hbad
  have hrun := QueryServerKeys_of_fetch_ok a ctx req res w e sk he hfetch
  refine ⟨hrun, ?_⟩
  intro hwrite hkeeps ctx2 kv hkv
  rw [hrun]
  exact hkeeps Context.Background ctx2 w.db req.ServerName sk hwrite kv hkv

/-- Witness of the amended C6: the stored entry is valid until 100, the request asks for 200,
the server answers with `newKeys`, valid until 300, and the write succeeds: the result is
`newKeys`, and the store then returns `newKeys` first for the key id `ed25519:1`. -/
theorem refetch_on_miss_or_stale_witness :
    apiKeys.QueryServerKeys Context.Background ⟨"origin.org", [("ed25519:1", ⟨200⟩)]⟩
        ⟨[oldKeys]⟩ ⟨notaryStore, []⟩ =
      (none,
        ({ db := { notaryStore with notaryKeys :=
              [("origin.org", "ed25519:1", newKeys), ("origin.org", "ed25519:1", oldKeys)] }
           trace := [Effect.GetServerKeys "origin.org",
            Effect.UpdateNotaryKeys "origin.org" newKeys] },
         { ServerKeys := [newKeys] })) ∧
      (memDatabase.GetNotaryKeys Context.Background
        (apiKeys.QueryServerKeys Context.Background ⟨"origin.org", [("ed25519:1", ⟨200⟩)]⟩
          ⟨[oldKeys]⟩ ⟨notaryStore, []⟩).2.1.db "origin.org" ["ed25519:1"]).1.head? =
        some newKeys :=
  ⟨(refetch_on_miss_or_stale apiKeys Context.Background
      ⟨"origin.org", [("ed25519:1", ⟨200⟩)]⟩ ⟨[oldKeys]⟩ ⟨notaryStore, []⟩ newKeys
      ⟨("ed25519:1", ⟨200⟩), List.mem_singleton.2 rfl,
        Or.inr ⟨oldKeys, [], rfl, by decide, by decide⟩⟩
      rfl).1,
    (refetch_on_miss_or_stale apiKeys Context.Background
      ⟨"origin.org", [("ed25519:1", ⟨200⟩)]⟩ ⟨[oldKeys]⟩ ⟨notaryStore, []⟩ newKeys
      ⟨("ed25519:1", ⟨200⟩), List.mem_singleton.2 rfl,
        Or.inr ⟨oldKeys, [], rfl, by decide, by decide⟩⟩
      rfl).2 rfl memDatabase_keepsWrites Context.Background ("ed25519:1", "key1")
      (List.mem_singleton.2 rfl)⟩

/-- C7, as stated, fails: the store holds nothing for the requested key id, the cache-first pass
fails, the direct fetch fails, the best-effort read returns an empty result without error, and
`QueryServerKeys` returns `nil` with an empty `res.ServerKeys`. -/
theorem empty_store_counterexample :
    apiDown.fetchServerKeysFromCache Context.Background ⟨"origin.org", [("ed25519:1", ⟨0⟩)]⟩
        exWorld = .error (.keyNotFound "ed25519:1") ∧
      fedDown.GetServerKeys [] (Context.Background.WithTimeout 30) "origin.org" =
        .error (.other "origin.org") ∧
      memDatabase.GetNotaryKeys Context.Background exStore "origin.org" ["ed25519:1"] =
        ([], none) ∧
      apiDown.QueryServerKeys Context.Background ⟨"origin.org", [("ed25519:1", ⟨0⟩)]⟩ ⟨[]⟩
          exWorld =
        (none, ({ db := exStore, trace := [Effect.GetServerKeys "origin.org"] }, ⟨[]⟩)) :=
  ⟨rfl, rfl, rfl, rfl⟩

/-- C7, amended: when the cache-first pass fails and the direct fetch fails with `err`,
`QueryServerKeys` returns a non-nil terminal error, built from `err` and the store's error,
when the best-effort read itself returns an error; when that read returns an empty result
without error, the call returns `nil` and `res.ServerKeys` is empty. -/
theorem terminal_error_only_on_read_error (a : FederationInternalAPI σ) (ctx : Context)
    (req : QueryServerKeysRequest) (res : QueryServerKeysResponse) (w : World σ)
    (e err : GoError)
    (hcache : a.fetchServerKeysFromCache ctx req w = .error e)
    (hfetch : a.federation.GetServerKeys w.trace (ctx.WithTimeout 30) req.ServerName =
      .error err) :
    (∀ l dbErr, a.db.GetNotaryKeys ctx w.db req.ServerName req.KeyIDs = (l, some dbErr) →
      a.QueryServerKeys ctx req res w =
        (some (.notary err dbErr),
          ({ db := w.db, trace := w.trace ++ [Effect.GetServerKeys req.ServerName] }, res))) ∧
      (a.db.GetNotaryKeys ctx w.db req.ServerName req.KeyIDs = ([], none) →
        a.QueryServerKeys ctx req res w =
          (none,
            ({ db := w.db, trace := w.trace ++ [Effect.GetServerKeys req.ServerName] },
             { ServerKeys := [] }))) := by
  refine ⟨?_, ?_⟩
  · intro l dbErr hread
    rw [QueryServerKeys_of_fetch_error a ctx req res w e err hcache hfetch, hread]
  · intro hread
    rw [QueryServerKeys_of_fetch_error a ctx req res w e err hcache hfetch, hread]

/-- Witness of the amended C7: with the unreadable store the call returns the terminal error;
with the readable, empty store it returns `nil` and no keys. -/
theorem terminal_error_only_on_read_error_witness :
    apiDown.QueryServerKeys Context.Background ⟨"origin.org", [("ed25519:1", ⟨0⟩)]⟩
        ⟨[oldKeys]⟩ ⟨exStoreUnreadable, []⟩ =
      (some (.notary (.other "origin.org") (.other "db down")),
        ({ db := exStoreUnreadable, trace := [Effect.GetServerKeys "origin.org"] },
         ⟨[oldKeys]⟩)) ∧
      apiDown.QueryServerKeys Context.Background ⟨"origin.org", [("ed25519:1", ⟨0⟩)]⟩
          ⟨[oldKeys]⟩ exWorld =
        (none, ({ db := exStore, trace := [Effect.GetServerKeys "origin.org"] }, ⟨[]⟩)) :=
  ⟨(terminal_error_only_on_read_error apiDown Context.Background
      ⟨"origin.org", [("ed25519:1", ⟨0⟩)]⟩ ⟨[oldKeys]⟩ ⟨exStoreUnreadable, []⟩
      (.keyNotFound "ed25519:1") (.other "origin.org") rfl rfl).1 [] (.other "db down") rfl,
    (terminal_error_only_on_read_error apiDown Context.Background
      ⟨"origin.org", [("ed25519:1", ⟨0⟩)]⟩ ⟨[oldKeys]⟩ exWorld
      (.keyNotFound "ed25519:1") (.other "origin.org") rfl rfl).2 rfl⟩

/-- C8: when the cache-first pass fails, the direct fetch fails, and the best-effort read for
the requested key ids returns the non-empty list `l` without error, `QueryServerKeys` returns
`nil` and `res.ServerKeys` is exactly `l`: nothing is assumed about the freshness of `l`. -/
theorem best_effort_returns_stored (a : FederationInternalAPI σ) (ctx : Context)
    (req : QueryServerKeysRequest) (res : QueryServerKeysResponse) (w : World σ)
    (e err : GoError) (l : List ServerKeys)
    (hcache : a.fetchServerKeysFromCache ctx req w = .error e)
    (hfetch : a.federation.GetServerKeys w.trace (ctx.WithTimeout 30) req.ServerName =
      .error err)
    (hread : a.db.GetNotaryKeys ctx w.db req.ServerName req.KeyIDs = (l, none))
    (_hne : l ≠ []) :
    (a.QueryServerKeys ctx req res w).1 = none ∧
      (a.QueryServerKeys ctx req res w).2.2.ServerKeys = l := by
  rw [QueryServerKeys_of_fetch_error a ctx req res w e err hcache hfetch, hread]
  exact ⟨rfl, rfl⟩

/-- Witness of C8: the stored entry is valid until 100, the request asks for 200, and the
server is down: the stale entry is returned. -/
theorem best_effort_returns_stored_witness :
    (apiDown.QueryServerKeys Context.Background ⟨"origin.org", [("ed25519:1", ⟨200⟩)]⟩ ⟨[]⟩
        ⟨notaryStore, []⟩).1 = none ∧
      (apiDown.QueryServerKeys Context.Background ⟨"origin.org", [("ed25519:1", ⟨200⟩)]⟩ ⟨[]⟩
        ⟨notaryStore, []⟩).2.2.ServerKeys = [oldKeys] :=
  best_effort_returns_stored apiDown Context.Background
    ⟨"origin.org", [("ed25519:1", ⟨200⟩)]⟩ ⟨[]⟩ ⟨notaryStore, []⟩
    (.keyNoLongerValid "ed25519:1" 200 100) (.other "origin.org") [oldKeys] rfl rfl rfl
    (by simp)

/-- C9: when the cache-first pass fails and the direct fetch answers with `sk`, then whatever
`UpdateNotaryKeys` returns (`werr`, `nil` or an error), `QueryServerKeys` returns `nil` and
`res.ServerKeys` is `[sk]`. -/
theorem write_error_is_not_fatal (a : FederationInternalAPI σ) (ctx : Context)
    (req : QueryServerKeysRequest) (res : QueryServerKeysResponse) (w : World σ)
    (e : GoError) (sk : ServerKeys) (werr : Option GoError)
    (hcache : a.fetchServerKeysFromCache ctx req w = .error e)
    (hfetch : a.federation.GetServerKeys w.trace (ctx.WithTimeout 30) req.ServerName =
      .ok sk)
    (_hwrite : (a.db.UpdateNotaryKeys Context.Background w.db req.ServerName sk).1 = werr) :
    (a.QueryServerKeys ctx req res w).1 = none ∧
      (a.QueryServerKeys ctx req res w).2.2.ServerKeys = [sk] := by
  rw [QueryServerKeys_of_fetch_ok a ctx req res w e sk hcache hfetch]
  exact ⟨rfl, rfl⟩

/-- Witness of C9: the write fails with `other "read-only"` (and, in the second half, it
succeeds), and the call returns `nil` with the fetched keys. -/
theorem write_error_is_not_fatal_witness :
    ((apiKeys.QueryServerKeys Context.Background ⟨"origin.org", [("ed25519:1", ⟨200⟩)]⟩ ⟨[]⟩
        ⟨notaryStoreReadOnly, []⟩).1 = none ∧
      (apiKeys.QueryServerKeys Context.Background ⟨"origin.org", [("ed25519:1", ⟨200⟩)]⟩ ⟨[]⟩
        ⟨notaryStoreReadOnly, []⟩).2.2.ServerKeys = [newKeys]) ∧
    ((apiKeys.QueryServerKeys Context.Background ⟨"origin.org", [("ed25519:1", ⟨200⟩)]⟩ ⟨[]⟩
        ⟨notaryStore, []⟩).1 = none ∧
      (apiKeys.QueryServerKeys Context.Background ⟨"origin.org", [("ed25519:1", ⟨200⟩)]⟩ ⟨[]⟩
        ⟨notaryStore, []⟩).2.2.ServerKeys = [newKeys]) :=
  ⟨write_error_is_not_fatal apiKeys Context.Background
      ⟨"origin.org", [("ed25519:1", ⟨200⟩)]⟩ ⟨[]⟩ ⟨notaryStoreReadOnly, []⟩
      (.keyNoLongerValid "ed25519:1" 200 100) newKeys (some (.other "read-only")) rfl rfl rfl,
    write_error_is_not_fatal apiKeys Context.Background
      ⟨"origin.org", [("ed25519:1", ⟨200⟩)]⟩ ⟨[]⟩ ⟨notaryStore, []⟩
      (.keyNoLongerValid "ed25519:1" 200 100) newKeys none rfl rfl rfl⟩

end Dendrite
